import Mathlib

/-!
# Filter Context Engine — verification development

A shallow embedding of the filter-context engine of the repository
(`src/filters/core/replacer.py`, `src/filters/core/extractor.py`,
`src/filters/core/manager.py`, `src/filters/processors/filter_removal_detector.py`,
`src/text_normalizer.py`, configuration in `src/config/agent_config.py`),
together with proofs and refutations of its stated properties.

Python dictionaries are modelled as insertion-ordered association lists
(`Ctx`): `lookupC` is `dict.get`, `insertC` is `dict[k] = v` (updates the
existing entry in place, otherwise appends at the end, exactly like a Python
dict preserves insertion order), `eraseC` is `del dict[k]`.  Python values
occurring in filter contexts are `None`, strings and lists of strings,
modelled by `Value`.  Python truthiness of these values is `truthyV`.
Human-readable change/correction message strings are modelled structurally
(their text content is never used for control flow in the source).
-/

namespace FilterEngine

/-- A Python value stored in a filter context: `None`, a string, or a list of
strings. -/
inductive Value where
  | null : Value
  | s (x : String) : Value
  | l (xs : List String) : Value
deriving DecidableEq, Repr

/-- A filter context: a Python dict from field name to value, modelled as an
insertion-ordered association list. -/
abbrev Ctx := List (String × Value)

/-- `dict.get k` / `dict[k]`: the value at the first matching key. -/
def lookupC : Ctx → String → Option Value
  | [], _ => none
  | (k, v) :: r, f => if k = f then some v else lookupC r f

/-- `dict[k] = v`: replace the value at an existing key in place, otherwise
append a new entry at the end (Python dicts preserve insertion order). -/
def insertC : Ctx → String → Value → Ctx
  | [], f, v => [(f, v)]
  | (k, w) :: r, f, v => if k = f then (k, v) :: r else (k, w) :: insertC r f v

/-- `del dict[k]`: remove the entry with the given key. -/
def eraseC (R : Ctx) (f : String) : Ctx :=
  R.filter (fun p => p.1 ≠ f)

/-- Python truthiness of a context value: `None`, `""` and `[]` are falsy. -/
def truthyV : Value → Bool
  | .null => false
  | .s x => !(x = "")
  | .l xs => !xs.isEmpty

/-! ## Configuration (`src/config/agent_config.py`, `FILTER_BEHAVIOR_CONFIG`) -/

/-- `FILTER_BEHAVIOR_CONFIG["exclusive_fields"]` (the keys). -/
def exclusiveFieldNames : List String :=
  ["Municipio_Cliente", "UF_Cliente", "Data", "periodo_mes_ano",
   "Cod_Cliente", "Cod_Segmento_Cliente"]

/-- `FILTER_BEHAVIOR_CONFIG["critical_preservation_fields"]`. -/
def criticalFields : List String :=
  ["Cod_Cliente", "Municipio_Cliente", "UF_Cliente", "Cod_Segmento_Cliente"]

/-- The open temporal-range fields cleared by an exact date
(`_clean_related_fields`, `range_fields`). -/
def rangeFields : List String := ["Data_>=", "Data_<", "Data_<=", "Data_>"]

/-- The temporal fields checked by `_check_group_conflicts` for `Data`. -/
def temporalFields : List String := ["Data", "Data_>=", "Data_<", "Data_<=", "Data_>"]

/-! ## `SmartFilterReplacer` (`src/filters/core/replacer.py`) -/

/-- `SmartFilterReplacer._check_group_conflicts`. -/
def checkGroupConflicts (f : String) (R : Ctx) : Bool :=
  if f = "Municipio_Cliente" then
    match lookupC R "Municipio_Cliente" with
    | some v => truthyV v
    | none => false
  else if f = "Data_>=" ∨ f = "Data_<" then
    (lookupC R "Data_>=").isSome && (lookupC R "Data_<").isSome
  else if f = "Data" then
    temporalFields.any (fun g =>
      match lookupC R g with
      | some v => truthyV v
      | none => false)
  else false

/-- `SmartFilterReplacer.should_replace_filter` (the `new_value` argument is
unused by the source logic and is omitted). -/
def shouldReplaceFilter (f : String) (R : Ctx) : Bool :=
  (decide (f ∈ exclusiveFieldNames) &&
    (match lookupC R f with
     | some v => !(v = Value.null)
     | none => false))
  || checkGroupConflicts f R

/-- `SmartFilterReplacer._clean_related_fields`: an exact `Data` clears the
open range fields; a new range bound clears the exact `Data`. -/
def cleanRelated (f : String) (R : Ctx) : Ctx :=
  if f = "Data" then rangeFields.foldl eraseC R
  else if f = "Data_>=" ∨ f = "Data_<" then eraseC R "Data"
  else R

/-- The keys that `cleanRelated f` can remove. -/
def cleanTargets (f : String) : List String :=
  if f = "Data" then rangeFields
  else if f = "Data_>=" ∨ f = "Data_<" then ["Data"]
  else []

/-- Appending a new value to an existing multi-value list, deduplicated, as
in the `else` branch of `apply_intelligent_merge` (the `.null` case is
unreachable because empty values are skipped before this point). -/
def appendItems (xs : List String) (v : Value) : List String :=
  match v with
  | .l ys => ys.foldl (fun acc y => if y ∈ acc then acc else acc ++ [y]) xs
  | .s y => if y ∈ xs then xs else xs ++ [y]
  | .null => xs

/-- One iteration of the `for field, new_value in new_filters.items()` loop of
`apply_intelligent_merge`, acting on the result context only (the change
message list does not influence the resulting context). -/
def stepR (R : Ctx) (p : String × Value) : Ctx :=
  if truthyV p.2 = false then R
  else if shouldReplaceFilter p.1 R then
    let old := lookupC R p.1
    let R' := insertC R p.1 p.2
    if old = some p.2 then R' else cleanRelated p.1 R'
  else
    match lookupC R p.1 with
    | some (Value.l xs) => insertC R p.1 (Value.l (appendItems xs p.2))
    | _ => insertC R p.1 p.2

/-- One loop iteration together with its effect on the provisional
critical-field preservation dict (`critical_preserved`), which is erased at a
field when that field is explicitly replaced. -/
def mergeStep (st : Ctx × Ctx) (p : String × Value) : Ctx × Ctx :=
  (stepR st.1 p,
   if truthyV p.2 && shouldReplaceFilter p.1 st.1 then eraseC st.2 p.1 else st.2)

/-- `SmartFilterReplacer._preserve_critical_fields`: critical fields present
in the existing context with a non-empty value and absent from the new filter
set are provisionally copied. -/
def preserveCritical (C N : Ctx) : Ctx :=
  criticalFields.foldl (fun P f =>
    match lookupC C f with
    | some v =>
      if (lookupC N f).isNone && truthyV v then insertC P f v else P
    | none => P) []

/-- The final loop of `apply_intelligent_merge`: merge the surviving
provisional critical fields back, only where the result has no value or
`None`. -/
def mergeBack (R P : Ctx) : Ctx :=
  P.foldl (fun R' q =>
    match lookupC R' q.1 with
    | none => insertC R' q.1 q.2
    | some Value.null => insertC R' q.1 q.2
    | some _ => R') R

/-- `SmartFilterReplacer.apply_intelligent_merge` (result context; the change
message list is audit-only in the source). -/
def applyIntelligentMerge (C N : Ctx) : Ctx :=
  let P0 := preserveCritical C N
  let st := N.foldl mergeStep (C, P0)
  mergeBack st.1 st.2

/-! ## Association-list lemmas -/

theorem lookupC_insertC_self (R : Ctx) (f : String) (v : Value) :
    lookupC (insertC R f v) f = some v := by
  induction R with
  | nil => simp [insertC, lookupC]
  | cons p r ih =>
    obtain ⟨k, w⟩ := p
    by_cases h : k = f
    · simp [insertC, lookupC, h]
    · simp [insertC, lookupC, h, ih]

theorem lookupC_insertC_ne (R : Ctx) (f g : String) (v : Value) (h : g ≠ f) :
    lookupC (insertC R f v) g = lookupC R g := by
  have hfg : ¬f = g := fun he => h he.symm
  induction R with
  | nil => simp [insertC, lookupC, hfg]
  | cons p r ih =>
    obtain ⟨k, w⟩ := p
    by_cases hk : k = f
    · subst hk
      simp [insertC, lookupC, hfg]
    · simp [insertC, lookupC, hk, ih]

theorem lookupC_eraseC_ne (R : Ctx) (f g : String) (h : g ≠ f) :
    lookupC (eraseC R f) g = lookupC R g := by
  induction R with
  | nil => simp [eraseC, lookupC]
  | cons p r ih =>
    obtain ⟨k, w⟩ := p
    by_cases hk : k = f
    · subst hk
      have hkg : ¬k = g := fun he => h he.symm
      simpa [eraseC, lookupC, hkg] using ih
    · by_cases hg : k = g
      · subst hg
        simp [eraseC, lookupC, hk]
      · simpa [eraseC, lookupC, hk, hg] using ih

theorem lookupC_eraseC_self (R : Ctx) (f : String) :
    lookupC (eraseC R f) f = none := by
  induction R with
  | nil => simp [eraseC, lookupC]
  | cons p r ih =>
    obtain ⟨k, w⟩ := p
    by_cases hk : k = f
    · subst hk; simpa [eraseC, lookupC] using ih
    · simpa [eraseC, lookupC, hk] using ih

theorem insertC_lookup_eq_self (R : Ctx) (f : String) (v : Value)
    (h : lookupC R f = some v) : insertC R f v = R := by
  induction R with
  | nil => simp [lookupC] at h
  | cons p r ih =>
    obtain ⟨k, w⟩ := p
    by_cases hk : k = f
    · subst hk
      simp [lookupC] at h
      simp [insertC, h]
    · simp [lookupC, hk] at h
      simp [insertC, hk, ih h]

theorem mem_insertC (R : Ctx) (f : String) (v : Value) (p : String × Value)
    (h : p ∈ insertC R f v) : p = (f, v) ∨ p ∈ R := by
  induction R with
  | nil => simpa [insertC] using h
  | cons q r ih =>
    obtain ⟨k, w⟩ := q
    by_cases hk : k = f
    · subst hk
      rcases (by simpa [insertC] using h : p = (k, v) ∨ p ∈ r) with h1 | h1
      · exact Or.inl (by simpa using h1)
      · exact Or.inr (List.mem_cons_of_mem _ h1)
    · rcases (by simpa [insertC, hk] using h : p = (k, w) ∨ p ∈ insertC r f v) with h1 | h1
      · exact Or.inr (by simp [h1])
      · rcases ih h1 with h2 | h2
        · exact Or.inl h2
        · exact Or.inr (List.mem_cons_of_mem _ h2)

theorem mem_eraseC (R : Ctx) (f : String) (p : String × Value)
    (h : p ∈ eraseC R f) : p ∈ R :=
  List.mem_of_mem_filter h

/-! ## Frame lemmas for the merge loop -/

theorem cleanTargets_subset (f g : String) (h : g ∈ cleanTargets f) :
    g ∈ "Data" :: rangeFields := by
  unfold cleanTargets at h
  split at h
  · exact List.mem_cons_of_mem _ h
  · split at h
    · simp only [List.mem_singleton] at h
      simp [h]
    · simp at h

theorem lookupC_cleanRelated_ne (R : Ctx) (f g : String)
    (h : g ∉ cleanTargets f) :
    lookupC (cleanRelated f R) g = lookupC R g := by
  unfold cleanRelated
  by_cases h1 : f = "Data"
  · simp only [h1, if_pos rfl]
    unfold cleanTargets at h
    rw [if_pos h1] at h
    simp only [rangeFields, List.mem_cons, List.not_mem_nil] at h
    push_neg at h
    obtain ⟨h2, h3, h4, h5, -⟩ := h
    simp [rangeFields, List.foldl,
      lookupC_eraseC_ne _ _ _ h2, lookupC_eraseC_ne _ _ _ h3,
      lookupC_eraseC_ne _ _ _ h4, lookupC_eraseC_ne _ _ _ h5]
  · rw [if_neg h1]
    by_cases h2 : f = "Data_>=" ∨ f = "Data_<"
    · rw [if_pos h2]
      unfold cleanTargets at h
      rw [if_neg h1, if_pos h2] at h
      simp only [List.mem_singleton] at h
      exact lookupC_eraseC_ne _ _ _ h
    · rw [if_neg h2]

theorem lookupC_stepR_ne (R : Ctx) (p : String × Value) (g : String)
    (hg : g ≠ p.1) (hc : g ∉ cleanTargets p.1) :
    lookupC (stepR R p) g = lookupC R g := by
  unfold stepR
  dsimp only
  split
  · rfl
  · split
    · split
      · exact lookupC_insertC_ne _ _ _ _ hg
      · rw [lookupC_cleanRelated_ne _ _ _ hc]
        exact lookupC_insertC_ne _ _ _ _ hg
    · split
      · exact lookupC_insertC_ne _ _ _ _ hg
      · exact lookupC_insertC_ne _ _ _ _ hg

theorem fst_foldl_mergeStep (N : List (String × Value)) :
    ∀ (C P : Ctx), (N.foldl mergeStep (C, P)).1 = N.foldl stepR C := by
  induction N with
  | nil => intro C P; rfl
  | cons p r ih => intro C P; simpa [List.foldl, mergeStep] using ih _ _

theorem snd_foldl_mergeStep_mem (N : List (String × Value)) :
    ∀ (C P : Ctx) (q : String × Value),
      q ∈ (N.foldl mergeStep (C, P)).2 → q ∈ P := by
  induction N with
  | nil => intro C P q h; exact h
  | cons p r ih =>
    intro C P q h
    have h1 := ih (stepR C p)
      (if truthyV p.2 && shouldReplaceFilter p.1 C then eraseC P p.1 else P) q
      (by simpa [List.foldl, mergeStep] using h)
    split at h1
    · exact mem_eraseC _ _ _ h1
    · exact h1

/-- A key that is not among the new filters and is not a temporal field keeps
its value through the whole merge loop. -/
theorem lookupC_foldl_stepR_ne (N : List (String × Value)) :
    ∀ (C : Ctx) (g : String),
      (∀ q ∈ N, g ≠ q.1) → g ∉ ("Data" :: rangeFields) →
      lookupC (N.foldl stepR C) g = lookupC C g := by
  induction N with
  | nil => intro C g _ _; rfl
  | cons p r ih =>
    intro C g hk hd
    rw [List.foldl_cons, ih _ _ (fun q hq => hk q (List.mem_cons_of_mem _ hq)) hd]
    exact lookupC_stepR_ne _ _ _ (hk p (List.mem_cons_self _ _))
      (fun hc => hd (cleanTargets_subset _ _ hc))

/-- Every entry of the provisional preservation dict is a critical field,
present in the old context with a truthy value and absent from the new
filters. -/
theorem mem_preserveCritical (C N : Ctx) (q : String × Value)
    (h : q ∈ preserveCritical C N) :
    q.1 ∈ criticalFields ∧ lookupC C q.1 = some q.2 ∧
      truthyV q.2 = true ∧ lookupC N q.1 = none := by
  have main : ∀ (fs : List String) (P : Ctx),
      (∀ q' ∈ P, q'.1 ∈ criticalFields ∧ lookupC C q'.1 = some q'.2 ∧
        truthyV q'.2 = true ∧ lookupC N q'.1 = none) →
      (∀ f ∈ fs, f ∈ criticalFields) →
      ∀ q' ∈ fs.foldl (fun P f =>
        match lookupC C f with
        | some v => if (lookupC N f).isNone && truthyV v then insertC P f v else P
        | none => P) P,
        q'.1 ∈ criticalFields ∧ lookupC C q'.1 = some q'.2 ∧
          truthyV q'.2 = true ∧ lookupC N q'.1 = none := by
    intro fs
    induction fs with
    | nil => intro P hP _ q' hq'; exact hP q' hq'
    | cons f r ih =>
      intro P hP hfs q' hq'
      rw [List.foldl_cons] at hq'
      refine ih _ ?_ (fun f' hf' => hfs f' (List.mem_cons_of_mem _ hf')) q' hq'
      intro q'' hq''
      split at hq''
      · rename_i v hv
        split at hq''
        · rename_i hcond
          rcases mem_insertC _ _ _ _ hq'' with h1 | h1
          · subst h1
            simp only [Bool.and_eq_true, Option.isNone_iff_eq_none] at hcond
            exact ⟨hfs f (List.mem_cons_self _ _), hv, hcond.2, hcond.1⟩
          · exact hP _ h1
        · exact hP _ hq''
      · exact hP _ hq''
  exact main criticalFields [] (by intro q' hq'; simp at hq')
    (fun f hf => hf) q h

/-- If every entry of the preservation dict is already present (non-`None`) in
the result, merging it back is a no-op. -/
theorem mergeBack_noop (P : List (String × Value)) :
    ∀ (R : Ctx),
      (∀ q ∈ P, ∃ u, lookupC R q.1 = some u ∧ u ≠ Value.null) →
      mergeBack R P = R := by
  induction P with
  | nil => intro R _; rfl
  | cons q r ih =>
    intro R hP
    obtain ⟨u, hu, hu0⟩ := hP q (List.mem_cons_self _ _)
    have step : (match lookupC R q.1 with
        | none => insertC R q.1 q.2
        | some Value.null => insertC R q.1 q.2
        | some _ => R) = R := by
      rw [hu]
      cases u with
      | null => exact absurd rfl hu0
      | s x => rfl
      | l xs => rfl
    unfold mergeBack
    rw [List.foldl_cons]
    show mergeBack (match lookupC R q.1 with
        | none => insertC R q.1 q.2
        | some Value.null => insertC R q.1 q.2
        | some _ => R) r = R
    rw [step]
    exact ih R (fun q' hq' => hP q' (List.mem_cons_of_mem _ hq'))

theorem lookupC_ne_none_of_mem (N : Ctx) (q : String × Value) (hq : q ∈ N) :
    lookupC N q.1 ≠ none := by
  induction N with
  | nil => simp at hq
  | cons a r ih =>
    rcases List.mem_cons.1 hq with h | h
    · subst h; simp [lookupC]
    · by_cases hk : a.1 = q.1
      · simp [lookupC, hk]
      · simpa [lookupC, hk] using ih h

/-- The critical-field merge-back of `apply_intelligent_merge` never changes
the context: preserved fields are still present, untouched, after the loop.
Hence the merge is the plain fold of the per-field step. -/
theorem applyIntelligentMerge_eq_foldl (C N : Ctx) :
    applyIntelligentMerge C N = N.foldl stepR C := by
  unfold applyIntelligentMerge
  dsimp only
  rw [fst_foldl_mergeStep]
  apply mergeBack_noop
  intro q hq
  have h1 := mem_preserveCritical C N q (snd_foldl_mergeStep_mem N C _ q hq)
  obtain ⟨hcrit, hlook, htru, habs⟩ := h1
  have hnotN : ∀ q' ∈ N, q.1 ≠ q'.1 := by
    intro q' hq' he
    have h2 := lookupC_ne_none_of_mem N q' hq'
    rw [← he] at h2
    exact h2 habs
  have hnotD : q.1 ∉ ("Data" :: rangeFields) := by
    simp only [criticalFields, List.mem_cons, List.not_mem_nil, or_false] at hcrit
    rcases hcrit with h | h | h | h <;> rw [h] <;> decide
  rw [lookupC_foldl_stepR_ne N C q.1 hnotN hnotD, hlook]
  refine ⟨q.2, rfl, ?_⟩
  intro he
  rw [he] at htru
  simp [truthyV] at htru

/-! ## Value tracking through one merge step -/

theorem lookupC_cleanRelated_cases (R : Ctx) (f g : String) :
    lookupC (cleanRelated f R) g = lookupC R g ∨
      lookupC (cleanRelated f R) g = none := by
  by_cases hc : g ∈ cleanTargets f
  · right
    unfold cleanRelated
    unfold cleanTargets at hc
    split at hc
    · rename_i h1
      rw [if_pos h1]
      simp only [rangeFields, List.mem_cons, List.not_mem_nil, or_false] at hc
      simp only [rangeFields, List.foldl]
      rcases hc with h | h | h | h <;> rw [h]
      · rw [lookupC_eraseC_ne _ _ _ (by decide), lookupC_eraseC_ne _ _ _ (by decide),
          lookupC_eraseC_ne _ _ _ (by decide)]
        exact lookupC_eraseC_self _ _
      · rw [lookupC_eraseC_ne _ _ _ (by decide), lookupC_eraseC_ne _ _ _ (by decide)]
        exact lookupC_eraseC_self _ _
      · rw [lookupC_eraseC_ne _ _ _ (by decide)]
        exact lookupC_eraseC_self _ _
      · exact lookupC_eraseC_self _ _
    · rename_i h1
      split at hc
      · rename_i h2
        simp only [List.mem_singleton] at hc
        rw [if_neg h1, if_pos h2, hc]
        exact lookupC_eraseC_self _ _
      · simp at hc
  · left
    exact lookupC_cleanRelated_ne _ _ _ hc

/-- After one merge-loop step, the value at any key is: unchanged, removed by
a cascading clear, set to the new value (replace / plain set), or an existing
multi-value list with the new items appended (which can only happen when the
step decided not to replace). -/
theorem lookupC_stepR_cases (R : Ctx) (p : String × Value) (g : String) :
    lookupC (stepR R p) g = lookupC R g ∨
    lookupC (stepR R p) g = none ∨
    (g = p.1 ∧ (lookupC (stepR R p) g = some p.2 ∨
      ∃ xs, lookupC R g = some (Value.l xs) ∧
        shouldReplaceFilter p.1 R = false ∧
        lookupC (stepR R p) g = some (Value.l (appendItems xs p.2)))) := by
  by_cases hg : g = p.1
  · unfold stepR
    dsimp only
    split
    · exact Or.inl rfl
    · rename_i htr
      split
      · rename_i hrep
        subst hg
        split
        · exact Or.inr (Or.inr ⟨rfl, Or.inl (lookupC_insertC_self _ _ _)⟩)
        · rcases lookupC_cleanRelated_cases (insertC R p.1 p.2) p.1 p.1 with h | h
          · exact Or.inr (Or.inr ⟨rfl, Or.inl (h.trans (lookupC_insertC_self _ _ _))⟩)
          · exact Or.inr (Or.inl h)
      · rename_i hrep
        subst hg
        split
        · rename_i xs hxs
          exact Or.inr (Or.inr ⟨rfl, Or.inr ⟨xs, hxs,
            Bool.not_eq_true _ ▸ (by simpa using hrep), lookupC_insertC_self _ _ _⟩⟩)
        · exact Or.inr (Or.inr ⟨rfl, Or.inl (lookupC_insertC_self _ _ _)⟩)
  · rcases (em (g ∈ cleanTargets p.1)) with hc | hc
    · unfold stepR
      dsimp only
      split
      · exact Or.inl rfl
      · split
        · split
          · exact Or.inl (lookupC_insertC_ne _ _ _ _ hg)
          · rcases lookupC_cleanRelated_cases (insertC R p.1 p.2) p.1 g with h | h
            · exact Or.inl (h.trans (lookupC_insertC_ne _ _ _ _ hg))
            · exact Or.inr (Or.inl h)
        · split
          · exact Or.inl (lookupC_insertC_ne _ _ _ _ hg)
          · exact Or.inl (lookupC_insertC_ne _ _ _ _ hg)
    · exact Or.inl (lookupC_stepR_ne _ _ _ hg hc)

/-! ## C2 — exclusivity invariant -/

/-- The exclusivity invariant of the spec: no exclusive field holds a list of
length greater than one. -/
def ExclusiveInv (R : Ctx) : Prop :=
  ∀ f ∈ exclusiveFieldNames, ∀ xs, lookupC R f = some (Value.l xs) → xs.length ≤ 1

theorem exclusive_stepR_preserves (R : Ctx) (p : String × Value)
    (hR : ExclusiveInv R)
    (hp : p.1 ∈ exclusiveFieldNames → ∀ xs, p.2 = Value.l xs → xs.length ≤ 1) :
    ExclusiveInv (stepR R p) := by
  intro f hf xs hxs
  rcases lookupC_stepR_cases R p f with h | h | ⟨hfp, h⟩
  · exact hR f hf xs (h ▸ hxs)
  · rw [hxs] at h; cases h
  · rcases h with h | ⟨xs0, hxs0, hrep, h⟩
    · rw [hxs] at h
      exact hp (hfp ▸ hf) xs (Option.some.inj h).symm
    · exfalso
      have hrep' : shouldReplaceFilter p.1 R = true := by
        unfold shouldReplaceFilter
        rw [← hfp, hxs0]
        simp only [Bool.or_eq_true, Bool.and_eq_true, decide_eq_true_eq]
        refine Or.inl ⟨hfp ▸ hf, ?_⟩
        simp
      rw [hrep'] at hrep
      cases hrep

theorem exclusive_foldl_preserves (N : List (String × Value)) :
    ∀ (C : Ctx), ExclusiveInv C →
      (∀ q ∈ N, q.1 ∈ exclusiveFieldNames → ∀ xs, q.2 = Value.l xs → xs.length ≤ 1) →
      ExclusiveInv (N.foldl stepR C) := by
  induction N with
  | nil => intro C hC _; exact hC
  | cons p r ih =>
    intro C hC hN
    rw [List.foldl_cons]
    exact ih _ (exclusive_stepR_preserves C p hC (hN p (List.mem_cons_self _ _)))
      (fun q hq => hN q (List.mem_cons_of_mem _ hq))

/-- C2 (corrected): after any merge in which every new value for a field
declared `Exclusive` is a scalar or a list of at most one element, and whose
starting context already satisfies the exclusivity invariant, no exclusive
field (`Municipio_Cliente`, `UF_Cliente`, `Data`, `periodo_mes_ano`,
`Cod_Cliente`, `Cod_Segmento_Cliente`) holds a list of length greater
than one. -/
theorem C2_exclusivity_invariant_amended (C N : Ctx)
    (hC : ExclusiveInv C)
    (hN : ∀ q ∈ N, q.1 ∈ exclusiveFieldNames → ∀ xs, q.2 = Value.l xs → xs.length ≤ 1) :
    ExclusiveInv (applyIntelligentMerge C N) := by
  rw [applyIntelligentMerge_eq_foldl]
  exact exclusive_foldl_preserves N C hC hN

/-- C2 counterexample: merging the new filter set
`{UF_Cliente: ["SP", "RJ"]}` (as produced by `UF_Cliente IN ('SP','RJ')`)
into the empty context leaves the exclusive field `UF_Cliente` holding a
two-element list, violating the claimed invariant. -/
theorem C2_exclusivity_invariant_counterexample :
    applyIntelligentMerge [] [("UF_Cliente", Value.l ["SP", "RJ"])]
        = [("UF_Cliente", Value.l ["SP", "RJ"])] ∧
      "UF_Cliente" ∈ exclusiveFieldNames ∧
      ¬ ExclusiveInv (applyIntelligentMerge [] [("UF_Cliente", Value.l ["SP", "RJ"])]) := by
  refine ⟨by decide, by decide, ?_⟩
  intro h
  have := h "UF_Cliente" (by decide) ["SP", "RJ"] (by decide)
  simp at this

/-- Witness for `C2_exclusivity_invariant_amended` at a concrete input. -/
theorem C2_exclusivity_invariant_witness :
    ExclusiveInv (applyIntelligentMerge
      [("UF_Cliente", Value.s "SP")] [("Municipio_Cliente", Value.s "CURITIBA")]) :=
  C2_exclusivity_invariant_amended _ _
    (by
      intro f _ xs hxs
      revert hxs
      by_cases h : "UF_Cliente" = f <;> simp [lookupC, h])
    (by
      intro q hq _ xs hxs
      simp only [List.mem_singleton] at hq
      rw [hq] at hxs
      cases hxs)

/-! ## C3 — critical-field preservation -/

/-- C3 (confirmed): a critical field (`Cod_Cliente`, `Municipio_Cliente`,
`UF_Cliente`, `Cod_Segmento_Cliente`) with a non-empty value in the old
context that is absent from the new filter set survives the merge unchanged;
in particular `{Cod_Cliente: "19114"}` merged with a client-free filter set
still holds `"19114"`, and merged with `{Cod_Cliente: "22910"}` holds
`"22910"`. -/
theorem C3_critical_field_preservation :
    (∀ (C N : Ctx) (f : String) (v : Value),
        f ∈ criticalFields → lookupC C f = some v → truthyV v = true →
        lookupC N f = none →
        lookupC (applyIntelligentMerge C N) f = some v) ∧
      applyIntelligentMerge [("Cod_Cliente", Value.s "19114")] []
        = [("Cod_Cliente", Value.s "19114")] ∧
      lookupC (applyIntelligentMerge [("Cod_Cliente", Value.s "19114")]
        [("Cod_Cliente", Value.s "22910")]) "Cod_Cliente" = some (Value.s "22910") := by
  refine ⟨?_, by decide, by decide⟩
  intro C N f v hf hv _ habs
  rw [applyIntelligentMerge_eq_foldl]
  rw [lookupC_foldl_stepR_ne N C f ?_ ?_]
  · exact hv
  · intro q hq he
    exact lookupC_ne_none_of_mem N q hq (he ▸ habs)
  · simp only [criticalFields, List.mem_cons, List.not_mem_nil, or_false] at hf
    rcases hf with h | h | h | h <;> rw [h] <;> decide

/-- Witness for `C3_critical_field_preservation` at a concrete input. -/
theorem C3_critical_field_preservation_witness :
    lookupC (applyIntelligentMerge
      [("Cod_Cliente", Value.s "19114"), ("Data", Value.s "2016-01-01")]
      [("UF_Cliente", Value.s "SP")]) "Cod_Cliente" = some (Value.s "19114") :=
  C3_critical_field_preservation.1
    [("Cod_Cliente", Value.s "19114"), ("Data", Value.s "2016-01-01")]
    [("UF_Cliente", Value.s "SP")] "Cod_Cliente" (Value.s "19114")
    (by decide) (by decide) (by decide) (by decide)

/-! ## C4 — idempotence of merge -/

/-- The items a new value contributes to a multi-value list. -/
def itemsOf : Value → List String
  | .null => []
  | .s y => [y]
  | .l ys => ys

theorem foldl_dedup_eq_of_subset (ys : List String) :
    ∀ xs : List String, (∀ y ∈ ys, y ∈ xs) →
      ys.foldl (fun acc y => if y ∈ acc then acc else acc ++ [y]) xs = xs := by
  induction ys with
  | nil => intro xs _; rfl
  | cons y r ih =>
    intro xs h
    rw [List.foldl_cons, if_pos (h y (List.mem_cons_self _ _))]
    exact ih xs (fun z hz => h z (List.mem_cons_of_mem _ hz))

theorem appendItems_eq_of_subset (xs : List String) (v : Value)
    (h : ∀ y ∈ itemsOf v, y ∈ xs) : appendItems xs v = xs := by
  cases v with
  | null => rfl
  | s y =>
    show (if y ∈ xs then xs else xs ++ [y]) = xs
    exact if_pos (h y (by simp [itemsOf]))
  | l ys =>
    exact foldl_dedup_eq_of_subset ys xs (by simpa [itemsOf] using h)

theorem mem_foldl_dedup_of_mem_acc (ys : List String) :
    ∀ (xs : List String) (z : String), z ∈ xs →
      z ∈ ys.foldl (fun acc y => if y ∈ acc then acc else acc ++ [y]) xs := by
  induction ys with
  | nil => intro xs z h; exact h
  | cons y r ih =>
    intro xs z h
    rw [List.foldl_cons]
    by_cases hy : y ∈ xs
    · rw [if_pos hy]; exact ih xs z h
    · rw [if_neg hy]; exact ih _ z (List.mem_append_left _ h)

theorem mem_foldl_dedup (ys : List String) :
    ∀ (xs : List String) (y : String), y ∈ ys →
      y ∈ ys.foldl (fun acc y => if y ∈ acc then acc else acc ++ [y]) xs := by
  induction ys with
  | nil => intro xs y h; simp at h
  | cons z r ih =>
    intro xs y h
    rw [List.foldl_cons]
    rcases List.mem_cons.1 h with h1 | h1
    · subst h1
      by_cases hy : y ∈ xs
      · rw [if_pos hy]
        exact mem_foldl_dedup_of_mem_acc r xs y hy
      · rw [if_neg hy]
        exact mem_foldl_dedup_of_mem_acc r _ y (List.mem_append_right _ (by simp))
    · by_cases hz : z ∈ xs
      · rw [if_pos hz]; exact ih xs y h1
      · rw [if_neg hz]; exact ih _ y h1

theorem mem_appendItems (xs : List String) (v : Value) (y : String)
    (h : y ∈ itemsOf v) : y ∈ appendItems xs v := by
  cases v with
  | null => simp [itemsOf] at h
  | s z =>
    simp only [itemsOf, List.mem_singleton] at h
    subst h
    show y ∈ (if y ∈ xs then xs else xs ++ [y])
    by_cases hy : y ∈ xs
    · rw [if_pos hy]; exact hy
    · rw [if_neg hy]; exact List.mem_append_right _ (by simp)
  | l ys =>
    simp only [itemsOf] at h
    show y ∈ ys.foldl (fun acc y => if y ∈ acc then acc else acc ++ [y]) xs
    exact mem_foldl_dedup ys xs y h

/-- The state of a processed new-filter entry after run one: either its key
holds exactly the new value, or (for a plain multi-value field only) a list
containing all its items. -/
def Afact (f : String) (v : Value) (R : Ctx) : Prop :=
  lookupC R f = some v ∨
    ∃ xs, lookupC R f = some (Value.l xs) ∧ (∀ y ∈ itemsOf v, y ∈ xs) ∧
      f ∉ exclusiveFieldNames ∧ ¬(f = "Data_>=" ∨ f = "Data_<")

theorem not_mem_cleanTargets_self (f : String) : f ∉ cleanTargets f := by
  unfold cleanTargets
  split
  · rename_i h; rw [h]; decide
  · split
    · rename_i h1 h2
      intro hm
      simp only [List.mem_singleton] at hm
      exact h1 hm
    · simp

theorem lookupC_stepR_self_replace (R : Ctx) (f : String) (v : Value)
    (htr : truthyV v = true) (hrep : shouldReplaceFilter f R = true) :
    lookupC (stepR R (f, v)) f = some v := by
  unfold stepR
  dsimp only
  rw [if_neg (by simp [htr]), if_pos hrep]
  split
  · exact lookupC_insertC_self _ _ _
  · rw [lookupC_cleanRelated_ne _ _ _ (not_mem_cleanTargets_self f)]
    exact lookupC_insertC_self _ _ _

/-- Establishing `Afact` at an entry's own processing step.  The hypothesis
excludes a pre-existing *list* value at a range-bound field (such a list can
be replaced by a later run while the first run appended to it — the source of
the second idempotence failure mode). -/
theorem Afact_stepR_self (R : Ctx) (f : String) (v : Value)
    (htr : truthyV v = true)
    (hB : (f = "Data_>=" ∨ f = "Data_<") → ∀ xs, lookupC R f ≠ some (Value.l xs)) :
    Afact f v (stepR R (f, v)) := by
  by_cases hrep : shouldReplaceFilter f R = true
  · exact Or.inl (lookupC_stepR_self_replace R f v htr hrep)
  · rw [Bool.not_eq_true] at hrep
    unfold stepR
    dsimp only
    rw [if_neg (by simp [htr]), if_neg (by simp [hrep])]
    split
    · rename_i xs hxs
      refine Or.inr ⟨appendItems xs v, lookupC_insertC_self _ _ _,
        fun y hy => mem_appendItems xs v y hy, ?_, ?_⟩
      · intro hex
        have : shouldReplaceFilter f R = true := by
          unfold shouldReplaceFilter
          rw [hxs]
          simp only [Bool.or_eq_true, Bool.and_eq_true, decide_eq_true_eq]
          exact Or.inl ⟨hex, by simp⟩
        rw [this] at hrep; cases hrep
      · intro hpair
        exact hB hpair xs hxs
    · exact Or.inl (lookupC_insertC_self _ _ _)

theorem Afact_of_lookup_eq (f : String) (v : Value) (R R' : Ctx)
    (h : Afact f v R) (he : lookupC R' f = lookupC R f) : Afact f v R' := by
  rcases h with h | ⟨xs, h1, h2, h3, h4⟩
  · exact Or.inl (he.trans h)
  · exact Or.inr ⟨xs, he.trans h1, h2, h3, h4⟩

/-- A processed entry's `Afact` survives the processing of the remaining
entries, provided later keys are distinct and cannot cascade-clear it. -/
theorem Afact_propagate (r : List (String × Value)) :
    ∀ (S : Ctx) (f : String) (v : Value),
      Afact f v S →
      (∀ q ∈ r, f ≠ q.1) →
      (∀ q ∈ r, f ∉ cleanTargets q.1) →
      Afact f v (r.foldl stepR S) := by
  induction r with
  | nil => intro S f v h _ _; exact h
  | cons q r' ih =>
    intro S f v h hk hc
    rw [List.foldl_cons]
    exact ih _ f v
      (Afact_of_lookup_eq f v S _ h
        (lookupC_stepR_ne S q f (hk q (List.mem_cons_self _ _))
          (hc q (List.mem_cons_self _ _))))
      (fun q' hq' => hk q' (List.mem_cons_of_mem _ hq'))
      (fun q' hq' => hc q' (List.mem_cons_of_mem _ hq'))

/-- Under condition (a) of the amended claim — the new filter set does not
mix the exact-date key with a range-bound key — no new-filter key is a
cascade-clear target of another new-filter key. -/
theorem not_mem_cleanTargets_of_hA (N : List (String × Value))
    (hA : ∀ q ∈ N, ∀ q' ∈ N, ¬(q.1 = "Data" ∧ q'.1 ∈ rangeFields))
    (p q : String × Value) (hp : p ∈ N) (hq : q ∈ N) :
    p.1 ∉ cleanTargets q.1 := by
  unfold cleanTargets
  split
  · rename_i h1
    intro hm
    exact hA q hq p hp ⟨h1, hm⟩
  · split
    · rename_i h1 h2
      intro hm
      simp only [List.mem_singleton] at hm
      refine hA p hp q hq ⟨hm, ?_⟩
      rcases h2 with h | h <;> rw [h] <;> decide
    · simp

/-- After the first merge run, each truthy new-filter entry satisfies `Afact`
under the amended side conditions. -/
theorem Afact_fold (N : List (String × Value)) :
    ∀ (C : Ctx),
      (N.map Prod.fst).Nodup →
      (∀ q ∈ N, ∀ q' ∈ N, ¬(q.1 = "Data" ∧ q'.1 ∈ rangeFields)) →
      (∀ q ∈ N, (q.1 = "Data_>=" ∨ q.1 = "Data_<") →
        ∀ xs, lookupC C q.1 ≠ some (Value.l xs)) →
      ∀ p ∈ N, truthyV p.2 = true → Afact p.1 p.2 (N.foldl stepR C) := by
  induction N with
  | nil => intro C _ _ _ p hp; simp at hp
  | cons g r ih =>
    intro C hnd hA hB p hp htr
    rw [List.foldl_cons]
    have hnd' : (r.map Prod.fst).Nodup := by
      simpa using hnd.of_cons
    have hgnot : g.1 ∉ r.map Prod.fst := by
      simp only [List.map_cons, List.nodup_cons] at hnd
      exact hnd.1
    rcases List.mem_cons.1 hp with hpg | hpr
    · subst hpg
      refine Afact_propagate r (stepR C p) p.1 p.2
        (by
          obtain ⟨f, v⟩ := p
          exact Afact_stepR_self C f v htr
            (fun hpair xs => hB (f, v) (List.mem_cons_self _ _) hpair xs))
        ?_ ?_
      · intro q hq he
        exact hgnot (he ▸ List.mem_map_of_mem Prod.fst hq)
      · intro q hq
        exact not_mem_cleanTargets_of_hA _ hA p q (List.mem_cons_self _ _)
          (List.mem_cons_of_mem _ hq)
    · refine ih (stepR C g) hnd'
        (fun q hq q' hq' => hA q (List.mem_cons_of_mem _ hq) q' (List.mem_cons_of_mem _ hq'))
        ?_ p hpr htr
      intro q hq hpair xs
      have hne : q.1 ≠ g.1 := by
        intro he
        exact hgnot (he ▸ List.mem_map_of_mem Prod.fst hq)
      rcases lookupC_stepR_cases C g q.1 with h | h | ⟨he, -⟩
      · rw [h]
        exact hB q (List.mem_cons_of_mem _ hq) hpair xs
      · rw [h]; simp
      · exact absurd he hne

/-- A merge step is a no-op on a state where its entry already satisfies
`Afact`. -/
theorem stepR_noop_of_Afact (R : Ctx) (f : String) (v : Value)
    (h : Afact f v R) : stepR R (f, v) = R := by
  by_cases htr : truthyV v = true
  · rcases h with h | ⟨xs, h1, h2, h3, h4⟩
    · unfold stepR
      dsimp only
      rw [if_neg (by simp [htr])]
      by_cases hrep : shouldReplaceFilter f R = true
      · rw [if_pos hrep, h, if_pos rfl]
        exact insertC_lookup_eq_self R f v h
      · rw [Bool.not_eq_true] at hrep
        rw [if_neg (by simp [hrep]), h]
        cases v with
        | null => simp [truthyV] at htr
        | s y => exact insertC_lookup_eq_self R f _ h
        | l ys =>
          show insertC R f (Value.l (appendItems ys (Value.l ys))) = R
          rw [appendItems_eq_of_subset ys (Value.l ys) (by simp [itemsOf])]
          exact insertC_lookup_eq_self R f _ h
    · have hrep : shouldReplaceFilter f R = false := by
        unfold shouldReplaceFilter
        have h5 : f ≠ "Municipio_Cliente" := fun he => h3 (by rw [he]; decide)
        have h6 : f ≠ "Data" := fun he => h3 (by rw [he]; decide)
        unfold checkGroupConflicts
        rw [if_neg h5, if_neg h4, if_neg h6]
        simp [h3]
      unfold stepR
      dsimp only
      rw [if_neg (by simp [htr]), if_neg (by simp [hrep]), h1]
      show insertC R f (Value.l (appendItems xs v)) = R
      rw [appendItems_eq_of_subset xs v h2]
      exact insertC_lookup_eq_self R f _ h1
  · unfold stepR
    dsimp only
    rw [Bool.not_eq_true] at htr
    rw [if_pos (by simp [htr])]

theorem foldl_stepR_id (N : List (String × Value)) :
    ∀ (R : Ctx), (∀ p ∈ N, stepR R p = R) → N.foldl stepR R = R := by
  induction N with
  | nil => intro R _; rfl
  | cons p r ih =>
    intro R h
    rw [List.foldl_cons, h p (List.mem_cons_self _ _)]
    exact ih R (fun q hq => h q (List.mem_cons_of_mem _ hq))

/-- C4 (corrected): merging the same new-filter set twice equals merging it
once, provided (keys of the new set are distinct, as for a Python dict) that
the new set does not combine the exact-date key `Data` with any range-bound
key, and that no range-bound key of the new set currently holds a *list*
value in the old context. -/
theorem C4_merge_idempotence_amended (C N : Ctx)
    (h1 : (N.map Prod.fst).Nodup)
    (h2 : ∀ q ∈ N, ∀ q' ∈ N, ¬(q.1 = "Data" ∧ q'.1 ∈ rangeFields))
    (h3 : ∀ q ∈ N, (q.1 = "Data_>=" ∨ q.1 = "Data_<") →
      ∀ xs, lookupC C q.1 ≠ some (Value.l xs)) :
    applyIntelligentMerge (applyIntelligentMerge C N) N = applyIntelligentMerge C N := by
  rw [applyIntelligentMerge_eq_foldl, applyIntelligentMerge_eq_foldl]
  apply foldl_stepR_id
  intro p hp
  by_cases htr : truthyV p.2 = true
  · obtain ⟨f, v⟩ := p
    exact stepR_noop_of_Afact _ f v (Afact_fold N C h1 h2 h3 (f, v) hp htr)
  · unfold stepR
    dsimp only
    rw [Bool.not_eq_true] at htr
    rw [if_pos (by simp [htr])]

/-- C4 counterexample: with new filters
`{Data_>=: "2016-06-01", Data_<: "2016-09-01", Data: "2015-01-15"}` applied
to the empty context, the first merge's cascading clear removes the two range
keys, and a second merge of the same set re-adds them: merge twice differs
from merge once. -/
theorem C4_merge_idempotence_counterexample :
    applyIntelligentMerge []
        [("Data_>=", Value.s "2016-06-01"), ("Data_<", Value.s "2016-09-01"),
         ("Data", Value.s "2015-01-15")]
      = [("Data", Value.s "2015-01-15")] ∧
    applyIntelligentMerge (applyIntelligentMerge []
        [("Data_>=", Value.s "2016-06-01"), ("Data_<", Value.s "2016-09-01"),
         ("Data", Value.s "2015-01-15")])
        [("Data_>=", Value.s "2016-06-01"), ("Data_<", Value.s "2016-09-01"),
         ("Data", Value.s "2015-01-15")]
      = [("Data", Value.s "2015-01-15"), ("Data_>=", Value.s "2016-06-01"),
         ("Data_<", Value.s "2016-09-01")] := by
  constructor <;> decide

/-- Witness for `C4_merge_idempotence_amended` at a concrete input. -/
theorem C4_merge_idempotence_witness :
    applyIntelligentMerge
        (applyIntelligentMerge [("Municipio_Cliente", Value.s "JOINVILLE")]
          [("Municipio_Cliente", Value.s "CURITIBA"), ("UF_Cliente", Value.s "PR")])
        [("Municipio_Cliente", Value.s "CURITIBA"), ("UF_Cliente", Value.s "PR")]
      = applyIntelligentMerge [("Municipio_Cliente", Value.s "JOINVILLE")]
          [("Municipio_Cliente", Value.s "CURITIBA"), ("UF_Cliente", Value.s "PR")] :=
  C4_merge_idempotence_amended _ _ (by decide)
    (by
      intro q hq q' _ hcon
      rcases List.mem_cons.1 hq with h | h
      · rw [h] at hcon; exact absurd hcon.1 (by decide)
      · simp only [List.mem_singleton] at h
        rw [h] at hcon; exact absurd hcon.1 (by decide))
    (by
      intro q hq hpair xs
      rcases List.mem_cons.1 hq with h | h
      · rw [h] at hpair; rcases hpair with h' | h' <;> exact absurd h' (by decide)
      · simp only [List.mem_singleton] at h
        rw [h] at hpair; rcases hpair with h' | h' <;> exact absurd h' (by decide))

/-! ## C5 — cascading clears -/

/-- C5 counterexample (to the symmetric half of the claim): merging the
temporal range `{Data_>=: "2016-06-01", Data_<: "2016-09-01"}` into a context
holding only the exact date `{Data: "2015-01-15"}` does *not* clear the exact
date — the cascading clear fires only when an already complete range is
replaced by a different bound. -/
theorem C5_cascading_clear_counterexample :
    applyIntelligentMerge [("Data", Value.s "2015-01-15")]
        [("Data_>=", Value.s "2016-06-01"), ("Data_<", Value.s "2016-09-01")]
      = [("Data", Value.s "2015-01-15"), ("Data_>=", Value.s "2016-06-01"),
         ("Data_<", Value.s "2016-09-01")] := by decide

/-- C5 (corrected): merging `{Data: "2015-01-15"}` into
`{Data_>=: "2016-06-01", Data_<: "2016-09-01"}` sets `Data` and removes both
range bounds; in the other direction, a new temporal range clears an existing
exact `Data` only when the context already holds both range bounds and the
new bound differs from the old one. -/
theorem C5_cascading_clear_amended :
    applyIntelligentMerge
        [("Data_>=", Value.s "2016-06-01"), ("Data_<", Value.s "2016-09-01")]
        [("Data", Value.s "2015-01-15")]
      = [("Data", Value.s "2015-01-15")] ∧
    applyIntelligentMerge
        [("Data", Value.s "2015-01-15"), ("Data_>=", Value.s "2016-01-01"),
         ("Data_<", Value.s "2016-03-01")]
        [("Data_>=", Value.s "2016-06-01"), ("Data_<", Value.s "2016-09-01")]
      = [("Data_>=", Value.s "2016-06-01"), ("Data_<", Value.s "2016-09-01")] := by
  constructor <;> decide

/-! ## String helpers for `auto_resolve_conflicts`

Character-list models of the Python string operations used by
`SmartFilterReplacer.auto_resolve_conflicts`: `str.upper` (ASCII),
`str.strip`, `str.replace(' AND ', ',')` (literal, case-sensitive,
left-to-right, non-overlapping), `str.split(',')` and substring containment
(`in`). -/

/-- Python whitespace characters recognised by `str.strip()`. -/
def isPySpace (c : Char) : Bool :=
  c = ' ' || c = '\t' || c = '\n' || c = '\r' ||
    c = Char.ofNat 11 || c = Char.ofNat 12

/-- `str.strip()`. -/
def pstripL (cs : List Char) : List Char :=
  ((cs.dropWhile isPySpace).reverse.dropWhile isPySpace).reverse

/-- `str.upper()` (ASCII model). -/
def upperL (cs : List Char) : List Char := cs.map Char.toUpper

/-- Substring containment, `needle in hay`. -/
def infixB (needle : List Char) : List Char → Bool
  | [] => needle.isEmpty
  | c :: rest => needle.isPrefixOf (c :: rest) || infixB needle rest

/-- Fuelled worker for `str.replace` (left-to-right, non-overlapping). -/
def replaceAllF (pat repl : List Char) : Nat → List Char → List Char
  | 0, cs => cs
  | _ + 1, [] => []
  | fuel + 1, c :: rest =>
    if pat.isPrefixOf (c :: rest) then
      repl ++ replaceAllF pat repl fuel (rest.drop (pat.length - 1))
    else c :: replaceAllF pat repl fuel rest

/-- `s.replace(pat, repl)` for a non-empty pattern. -/
def replaceAll (pat repl cs : List Char) : List Char :=
  replaceAllF pat repl cs.length cs

/-- `s.split(',')` (always returns at least one piece). -/
def splitComma : List Char → List (List Char)
  | [] => [[]]
  | c :: rest =>
    if c = ',' then [] :: splitComma rest
    else
      match splitComma rest with
      | p :: ps => (c :: p) :: ps
      | [] => [[c]]

/-- `parts[-1]` (the default is unreachable, `split` is never empty). -/
def lastD (l : List (List Char)) : List Char := l.getLast?.getD []

/-- The conjunction-separator test of `auto_resolve_conflicts`:
`' AND ' in value.upper() or ', ' in value`. -/
def hasSep (m : String) : Bool :=
  infixB " AND ".data (upperL m.data) || infixB ", ".data m.data

/-- `municipio.replace(' AND ', ',').split(',')[-1].strip().upper()`. -/
def collapseMunicipio (m : String) : String :=
  ⟨upperL (pstripL (lastD (splitComma (replaceAll " AND ".data ",".data m.data))))⟩

/-- `cliente.replace(' AND ', ',').split(',')[-1].strip()` (no upper-casing
for the client code). -/
def collapseCliente (c : String) : String :=
  ⟨pstripL (lastD (splitComma (replaceAll " AND ".data ",".data c.data)))⟩

/-! ## `SmartFilterReplacer.auto_resolve_conflicts` -/

/-- A correction emitted by `auto_resolve_conflicts`, modelled structurally. -/
inductive Correction where
  | multipleCities (kept : String)
  | singletonList
  | multipleClients (kept : String)
  | temporalConflict
deriving DecidableEq, Repr

/-- CONFLITO 1: a `Municipio_Cliente` string holding a conjunction is
collapsed to its last member (upper-cased); a one-element list becomes its
scalar. -/
def resolveMunicipio (ctx : Ctx) : Ctx × List Correction :=
  match lookupC ctx "Municipio_Cliente" with
  | some (Value.s m) =>
    if hasSep m then
      (insertC ctx "Municipio_Cliente" (Value.s (collapseMunicipio m)),
       [Correction.multipleCities (collapseMunicipio m)])
    else (ctx, [])
  | some (Value.l xs) =>
    match xs with
    | [x] => (insertC ctx "Municipio_Cliente" (Value.s x), [Correction.singletonList])
    | _ => (ctx, [])
  | _ => (ctx, [])

/-- CONFLITO 2: a `Cod_Cliente` string holding a conjunction is collapsed to
its last member (no upper-casing, no list branch). -/
def resolveCliente (st : Ctx × List Correction) : Ctx × List Correction :=
  match lookupC st.1 "Cod_Cliente" with
  | some (Value.s c) =>
    if hasSep c then
      (insertC st.1 "Cod_Cliente" (Value.s (collapseCliente c)),
       st.2 ++ [Correction.multipleClients (collapseCliente c)])
    else st
  | _ => st

/-- Truthiness of the value stored at a field (`field in ctx and ctx[field]`). -/
def truthyAt (R : Ctx) (f : String) : Bool :=
  match lookupC R f with
  | some v => truthyV v
  | none => false

/-- CONFLITO 3: a truthy exact `Data` together with a truthy range bound
drops the exact date (the range wins). -/
def resolveTemporal (st : Ctx × List Correction) : Ctx × List Correction :=
  if truthyAt st.1 "Data" && (truthyAt st.1 "Data_>=" || truthyAt st.1 "Data_<") then
    (eraseC st.1 "Data", st.2 ++ [Correction.temporalConflict])
  else st

/-- `SmartFilterReplacer.auto_resolve_conflicts`. -/
def autoResolveConflicts (ctx : Ctx) : Ctx × List Correction :=
  resolveTemporal (resolveCliente (resolveMunicipio ctx))

/-! ## C7 — idempotence of conflict auto-correction -/

theorem resolveMunicipio_fst_lookup_ne (ctx : Ctx) (g : String)
    (hg : g ≠ "Municipio_Cliente") :
    lookupC (resolveMunicipio ctx).1 g = lookupC ctx g := by
  unfold resolveMunicipio
  split
  · split
    · exact lookupC_insertC_ne _ _ _ _ hg
    · rfl
  · split
    · exact lookupC_insertC_ne _ _ _ _ hg
    · rfl
  · rfl

theorem resolveCliente_fst_lookup_ne (st : Ctx × List Correction) (g : String)
    (hg : g ≠ "Cod_Cliente") :
    lookupC (resolveCliente st).1 g = lookupC st.1 g := by
  unfold resolveCliente
  split
  · split
    · exact lookupC_insertC_ne _ _ _ _ hg
    · rfl
  · rfl

theorem resolveTemporal_fst_lookup_ne (st : Ctx × List Correction) (g : String)
    (hg : g ≠ "Data") :
    lookupC (resolveTemporal st).1 g = lookupC st.1 g := by
  unfold resolveTemporal
  split
  · exact lookupC_eraseC_ne _ _ _ hg
  · rfl

theorem resolveMunicipio_cases (ctx : Ctx) :
    (resolveMunicipio ctx = (ctx, []) ∧
      (∀ m, lookupC ctx "Municipio_Cliente" = some (Value.s m) → hasSep m = false) ∧
      (∀ x, lookupC ctx "Municipio_Cliente" ≠ some (Value.l [x]))) ∨
    (∃ m, lookupC ctx "Municipio_Cliente" = some (Value.s m) ∧ hasSep m = true ∧
      resolveMunicipio ctx =
        (insertC ctx "Municipio_Cliente" (Value.s (collapseMunicipio m)),
         [Correction.multipleCities (collapseMunicipio m)])) ∨
    (∃ x, lookupC ctx "Municipio_Cliente" = some (Value.l [x]) ∧
      resolveMunicipio ctx =
        (insertC ctx "Municipio_Cliente" (Value.s x), [Correction.singletonList])) := by
  unfold resolveMunicipio
  cases hv : lookupC ctx "Municipio_Cliente" with
  | none => exact Or.inl ⟨rfl, by simp, by simp⟩
  | some v =>
    cases v with
    | null => exact Or.inl ⟨rfl, by simp, by simp⟩
    | s m =>
      by_cases hs : hasSep m = true
      · refine Or.inr (Or.inl ⟨m, rfl, hs, ?_⟩)
        show (if hasSep m = true then
            (insertC ctx "Municipio_Cliente" (Value.s (collapseMunicipio m)),
             [Correction.multipleCities (collapseMunicipio m)])
          else (ctx, ([] : List Correction))) = _
        rw [if_pos hs]
      · rw [Bool.not_eq_true] at hs
        refine Or.inl ⟨?_, ?_, by simp⟩
        · show (if hasSep m = true then
              (insertC ctx "Municipio_Cliente" (Value.s (collapseMunicipio m)),
               [Correction.multipleCities (collapseMunicipio m)])
            else (ctx, ([] : List Correction))) = (ctx, [])
          rw [if_neg (by simp [hs])]
        · intro m' hm'
          obtain rfl : m = m' := by injection (Option.some.inj hm')
          exact hs
    | l xs =>
      rcases xs with - | ⟨x, - | ⟨y, t⟩⟩
      · exact Or.inl ⟨rfl, by simp, by simp⟩
      · exact Or.inr (Or.inr ⟨x, rfl, rfl⟩)
      · exact Or.inl ⟨rfl, by simp, by simp⟩

theorem resolveCliente_cases (st : Ctx × List Correction) :
    (resolveCliente st = st ∧
      (∀ c, lookupC st.1 "Cod_Cliente" = some (Value.s c) → hasSep c = false)) ∨
    (∃ c, lookupC st.1 "Cod_Cliente" = some (Value.s c) ∧ hasSep c = true ∧
      resolveCliente st =
        (insertC st.1 "Cod_Cliente" (Value.s (collapseCliente c)),
         st.2 ++ [Correction.multipleClients (collapseCliente c)])) := by
  unfold resolveCliente
  cases hv : lookupC st.1 "Cod_Cliente" with
  | none => exact Or.inl ⟨rfl, by simp⟩
  | some v =>
    cases v with
    | null => exact Or.inl ⟨rfl, by simp⟩
    | s c =>
      by_cases hs : hasSep c = true
      · refine Or.inr ⟨c, rfl, hs, ?_⟩
        show (if hasSep c = true then
            (insertC st.1 "Cod_Cliente" (Value.s (collapseCliente c)),
             st.2 ++ [Correction.multipleClients (collapseCliente c)])
          else st) = _
        rw [if_pos hs]
      · rw [Bool.not_eq_true] at hs
        refine Or.inl ⟨?_, ?_⟩
        · show (if hasSep c = true then
              (insertC st.1 "Cod_Cliente" (Value.s (collapseCliente c)),
               st.2 ++ [Correction.multipleClients (collapseCliente c)])
            else st) = st
          rw [if_neg (by simp [hs])]
        · intro c' hc'
          obtain rfl : c = c' := by injection (Option.some.inj hc')
          exact hs
    | l xs => exact Or.inl ⟨rfl, by simp⟩

theorem resolveMunicipio_id_of_stable (R : Ctx)
    (hs : ∀ m, lookupC R "Municipio_Cliente" = some (Value.s m) → hasSep m = false)
    (hl : ∀ x, lookupC R "Municipio_Cliente" ≠ some (Value.l [x])) :
    resolveMunicipio R = (R, []) := by
  unfold resolveMunicipio
  cases hv : lookupC R "Municipio_Cliente" with
  | none => rfl
  | some v =>
    cases v with
    | null => rfl
    | s m =>
      show (if hasSep m = true then
          (insertC R "Municipio_Cliente" (Value.s (collapseMunicipio m)),
           [Correction.multipleCities (collapseMunicipio m)])
        else (R, ([] : List Correction))) = (R, [])
      rw [if_neg (by simp [hs m hv])]
    | l xs =>
      rcases xs with - | ⟨x, - | ⟨y, t⟩⟩
      · rfl
      · exact absurd hv (hl x)
      · rfl

theorem resolveCliente_id_of_stable (st : Ctx × List Correction)
    (hs : ∀ c, lookupC st.1 "Cod_Cliente" = some (Value.s c) → hasSep c = false) :
    resolveCliente st = st := by
  unfold resolveCliente
  cases hv : lookupC st.1 "Cod_Cliente" with
  | none => rfl
  | some v =>
    cases v with
    | null => rfl
    | s c =>
      show (if hasSep c = true then
          (insertC st.1 "Cod_Cliente" (Value.s (collapseCliente c)),
           st.2 ++ [Correction.multipleClients (collapseCliente c)])
        else st) = st
      rw [if_neg (by simp [hs c hv])]
    | l xs => rfl

theorem resolveTemporal_id_of (st : Ctx × List Correction)
    (h : (truthyAt st.1 "Data" &&
      (truthyAt st.1 "Data_>=" || truthyAt st.1 "Data_<")) = false) :
    resolveTemporal st = st := by
  unfold resolveTemporal
  rw [if_neg (by simp [h])]

/-- C7 counterexample: on the context
`{Municipio_Cliente: ["A, B"]}` the first auto-correction collapses the
one-element list to the string `"A, B"`, and a *second* application then
collapses that string to `"B"` — running twice differs from running once, and
a correction is still emitted on the second run. -/
theorem C7_autocorrect_idempotence_counterexample :
    (autoResolveConflicts [("Municipio_Cliente", Value.l ["A, B"])]).1
        = [("Municipio_Cliente", Value.s "A, B")] ∧
      (autoResolveConflicts [("Municipio_Cliente", Value.s "A, B")]).1
        = [("Municipio_Cliente", Value.s "B")] ∧
      (autoResolveConflicts
          (autoResolveConflicts [("Municipio_Cliente", Value.l ["A, B"])]).1).1
        ≠ (autoResolveConflicts [("Municipio_Cliente", Value.l ["A, B"])]).1 := by
  refine ⟨by decide, by decide, by decide⟩

/-- C7 (corrected): conflict auto-correction is idempotent — and the second
run emits no further corrections — provided that each collapse it performs is
final: a collapsed `Municipio_Cliente`/`Cod_Cliente` string contains no
further conjunction separator, and a one-element `Municipio_Cliente` list
holds a separator-free string.  (These side conditions fail, e.g., for a
lowercase `" and "`, whose detection is case-insensitive but whose
replacement is case-sensitive, and for singleton lists holding a separator —
see the counterexample.) -/
theorem C7_autocorrect_idempotence_amended (ctx : Ctx)
    (hM : ∀ m, lookupC ctx "Municipio_Cliente" = some (Value.s m) →
      hasSep m = true → hasSep (collapseMunicipio m) = false)
    (hML : ∀ x, lookupC ctx "Municipio_Cliente" = some (Value.l [x]) →
      hasSep x = false)
    (hC : ∀ c, lookupC ctx "Cod_Cliente" = some (Value.s c) →
      hasSep c = true → hasSep (collapseCliente c) = false) :
    (autoResolveConflicts (autoResolveConflicts ctx).1).1 = (autoResolveConflicts ctx).1 ∧
      (autoResolveConflicts (autoResolveConflicts ctx).1).2 = [] := by
  have hMuniCtx := resolveMunicipio_cases ctx
  set M := resolveMunicipio ctx with hMdef
  set CL := resolveCliente M with hCLdef
  have hR1 : (autoResolveConflicts ctx).1 = (resolveTemporal CL).1 := rfl
  set R1 := (resolveTemporal CL).1 with hR1def
  -- the Municipio value in R1 equals the one in M
  have hMuniR1 : lookupC R1 "Municipio_Cliente" = lookupC M.1 "Municipio_Cliente" := by
    rw [hR1def, resolveTemporal_fst_lookup_ne CL _ (by decide),
      hCLdef, resolveCliente_fst_lookup_ne M _ (by decide)]
  -- the Cod_Cliente value in R1 equals the one in CL
  have hCodR1 : lookupC R1 "Cod_Cliente" = lookupC CL.1 "Cod_Cliente" := by
    rw [hR1def, resolveTemporal_fst_lookup_ne CL _ (by decide)]
  -- Cod_Cliente is untouched by the Municipio step
  have hCodM : lookupC M.1 "Cod_Cliente" = lookupC ctx "Cod_Cliente" := by
    rw [hMdef, resolveMunicipio_fst_lookup_ne ctx _ (by decide)]
  -- Municipio stability in R1
  have hMuniStable :
      (∀ m, lookupC R1 "Municipio_Cliente" = some (Value.s m) → hasSep m = false) ∧
      (∀ x, lookupC R1 "Municipio_Cliente" ≠ some (Value.l [x])) := by
    rcases hMuniCtx with ⟨heq, hst, hnl⟩ | ⟨m, hm, hsep, heq⟩ | ⟨x, hx, heq⟩
    · constructor
      · intro m hm
        rw [hMuniR1, heq] at hm
        exact hst m hm
      · intro x hx
        rw [hMuniR1, heq] at hx
        exact hnl x hx
    · have hlook : lookupC M.1 "Municipio_Cliente"
          = some (Value.s (collapseMunicipio m)) := by
        rw [heq]
        exact lookupC_insertC_self _ _ _
      constructor
      · intro m' hm'
        rw [hMuniR1, hlook] at hm'
        obtain rfl : collapseMunicipio m = m' := by injection (Option.some.inj hm')
        exact hM m hm hsep
      · intro x hx
        rw [hMuniR1, hlook] at hx
        cases hx
    · have hlook : lookupC M.1 "Municipio_Cliente" = some (Value.s x) := by
        rw [heq]
        exact lookupC_insertC_self _ _ _
      constructor
      · intro m' hm'
        rw [hMuniR1, hlook] at hm'
        obtain rfl : x = m' := by injection (Option.some.inj hm')
        exact hML x hx
      · intro x' hx'
        rw [hMuniR1, hlook] at hx'
        cases hx'
  -- Cod_Cliente stability in R1
  have hCodStable :
      ∀ c, lookupC R1 "Cod_Cliente" = some (Value.s c) → hasSep c = false := by
    rcases resolveCliente_cases M with ⟨heq, hst⟩ | ⟨c, hc, hsep, heq⟩
    · rw [← hCLdef] at heq
      intro c hcc
      rw [hCodR1, heq] at hcc
      exact hst c hcc
    · rw [← hCLdef] at heq
      have hlook : lookupC CL.1 "Cod_Cliente"
          = some (Value.s (collapseCliente c)) := by
        rw [heq]
        exact lookupC_insertC_self _ _ _
      intro c' hc'
      rw [hCodR1, hlook] at hc'
      obtain rfl : collapseCliente c = c' := by injection (Option.some.inj hc')
      rw [hCodM] at hc
      exact hC c hc hsep
  -- the temporal conflict cannot re-fire on R1
  have hTempStable :
      (truthyAt R1 "Data" && (truthyAt R1 "Data_>=" || truthyAt R1 "Data_<")) = false := by
    by_cases hfire : (truthyAt CL.1 "Data" &&
        (truthyAt CL.1 "Data_>=" || truthyAt CL.1 "Data_<")) = true
    · have : R1 = eraseC CL.1 "Data" := by
        rw [hR1def]
        unfold resolveTemporal
        rw [if_pos hfire]
      rw [this]
      have : truthyAt (eraseC CL.1 "Data") "Data" = false := by
        unfold truthyAt
        rw [lookupC_eraseC_self]
      simp [this]
    · rw [Bool.not_eq_true] at hfire
      have : R1 = CL.1 := by
        rw [hR1def, resolveTemporal_id_of CL hfire]
      rw [this]
      exact hfire
  -- the second run is the identity
  have h2 : autoResolveConflicts R1 = (R1, []) := by
    unfold autoResolveConflicts
    rw [resolveMunicipio_id_of_stable R1 hMuniStable.1 hMuniStable.2,
      resolveCliente_id_of_stable (R1, []) hCodStable,
      resolveTemporal_id_of (R1, []) hTempStable]
  rw [hR1] at *
  rw [h2]
  exact ⟨rfl, rfl⟩

/-- Witness for `C7_autocorrect_idempotence_amended` at a concrete input. -/
theorem C7_autocorrect_idempotence_witness :
    (autoResolveConflicts (autoResolveConflicts
        [("Municipio_Cliente", Value.s "JOINVILLE AND CURITIBA")]).1).1
      = (autoResolveConflicts
        [("Municipio_Cliente", Value.s "JOINVILLE AND CURITIBA")]).1 :=
  (C7_autocorrect_idempotence_amended
    [("Municipio_Cliente", Value.s "JOINVILLE AND CURITIBA")]
    (by
      intro m hm _
      have h1 : Value.s "JOINVILLE AND CURITIBA" = Value.s m := by
        simpa [lookupC] using hm
      cases h1
      decide)
    (by intro x hx; simp [lookupC] at hx)
    (by intro c hc; simp [lookupC] at hc)).1

/-! ## Dates

`datetime.date` values are modelled as year/month/day triples;
`datetime.strptime(s[:10], '%Y-%m-%d')` is `parseDate` (with `datetime`'s
month/day validation) and `f"{y:04d}-{m:02d}-{d:02d}"` is `formatDate`. -/

structure Date where
  y : Nat
  m : Nat
  d : Nat
deriving DecidableEq, Repr

def isLeap (y : Nat) : Bool :=
  y % 4 = 0 && (!(y % 100 = 0) || y % 400 = 0)

def daysInMonth (y m : Nat) : Nat :=
  if m = 2 then (if isLeap y then 29 else 28)
  else if m = 4 ∨ m = 6 ∨ m = 9 ∨ m = 11 then 30
  else 31

/-- `date - timedelta(days=1)` on a valid date. -/
def prevDay (dt : Date) : Date :=
  if 1 < dt.d then ⟨dt.y, dt.m, dt.d - 1⟩
  else if 1 < dt.m then ⟨dt.y, dt.m - 1, daysInMonth dt.y (dt.m - 1)⟩
  else ⟨dt.y - 1, 12, 31⟩

def digitChar : Nat → Char
  | 0 => '0'
  | 1 => '1'
  | 2 => '2'
  | 3 => '3'
  | 4 => '4'
  | 5 => '5'
  | 6 => '6'
  | 7 => '7'
  | 8 => '8'
  | 9 => '9'
  | _ => '*'

def toDigit (c : Char) : Option Nat :=
  if c.isDigit then some (c.toNat - 48) else none

def natDigitsAux : Nat → Nat → List Char → List Char
  | 0, _, acc => acc
  | fuel + 1, n, acc =>
    if n < 10 then digitChar n :: acc
    else natDigitsAux fuel (n / 10) (digitChar (n % 10) :: acc)

def natDigits (n : Nat) : List Char := natDigitsAux (n + 1) n []

/-- `f"{n:02d}"`. -/
def pad2L (n : Nat) : List Char :=
  if n < 100 then [digitChar (n / 10), digitChar (n % 10)] else natDigits n

/-- `f"{n:04d}"`. -/
def pad4L (n : Nat) : List Char :=
  if n < 10000 then
    [digitChar (n / 1000), digitChar (n / 100 % 10),
     digitChar (n / 10 % 10), digitChar (n % 10)]
  else natDigits n

/-- `f"{y:04d}-{m:02d}-{d:02d}"`. -/
def formatDate (y m d : Nat) : String :=
  ⟨pad4L y ++ '-' :: pad2L m ++ '-' :: pad2L d⟩

/-- `datetime.strptime(date_str[:10], '%Y-%m-%d')`: four year digits, two
month digits and two day digits with `-` separators, with `datetime`'s
validation of the month and of the day against the month length. -/
def parseDate (s : String) : Option Date :=
  match s.data with
  | a :: b :: c :: d :: s1 :: e :: f :: s2 :: g :: h :: _ =>
    if s1 = '-' ∧ s2 = '-' then
      match toDigit a, toDigit b, toDigit c, toDigit d,
            toDigit e, toDigit f, toDigit g, toDigit h with
      | some d1, some d2, some d3, some d4, some m1, some m2, some a1, some a2 =>
        let yy := d1 * 1000 + d2 * 100 + d3 * 10 + d4
        let mm := m1 * 10 + m2
        let dd := a1 * 10 + a2
        if 1 ≤ mm ∧ mm ≤ 12 ∧ 1 ≤ dd ∧ dd ≤ daysInMonth yy mm then
          some ⟨yy, mm, dd⟩
        else none
      | _, _, _, _, _, _, _, _ => none
    else none
  | _ => none

/-! ## `StructuredPeriod` (`text_normalizer.py` / `extractor.py`)

The structured-period dictionaries of the source have four shapes:
`{"mes": .., "ano": ..}` (exact month), `{"inicio": {..}, "fim": {..}}`
(month range), `{"ano": ..}` (year) and `{"Data_>=": .., "Data_<"/"Data_<=": ..}`
(raw range).  The source stores months/years as zero-padded decimal strings
(`"07"`, `"2015"`) and converts them back with `int()`; the variants here
carry the numeric content directly. -/

inductive Periodo where
  | mesAno (mes ano : Nat)
  | inicioFim (mesI anoI mesF anoF : Nat)
  | anoOnly (ano : Nat)
  | rawRange (ge lt : String) (exclusive : Bool)
deriving DecidableEq, Repr

def nextMonth (y m : Nat) : Nat × Nat :=
  if m = 12 then (y + 1, 1) else (y, m + 1)

/-- `TextNormalizer.convert_structured_to_ranges`: the half-open
`[Data_>=, Data_<)` interval of a structured period.  A raw-range dict
carrying a `Data_<=` key (the non-exclusive fallback) matches no case of the
source function, which then returns `{}`. -/
def convertStructuredToRanges : Periodo → Option (String × String)
  | .mesAno m y =>
    let nm := nextMonth y m
    some (formatDate y m 1, formatDate nm.1 nm.2 1)
  | .inicioFim mi yi mf yf =>
    let nm := nextMonth yf mf
    some (formatDate yi mi 1, formatDate nm.1 nm.2 1)
  | .anoOnly a => some (formatDate a 1 1, formatDate (a + 1) 1 1)
  | .rawRange ge lt excl => if excl then some (ge, lt) else none

/-- `SQLFilterExtractor._convert_date_to_month_year`. -/
def convertDateToMonthYear (s : String) : Option (Nat × Nat) :=
  (parseDate s).map fun dt => (dt.m, dt.y)

/-- `SQLFilterExtractor._convert_date_range_to_structured`.  The generic
branch re-parses the very strings parsed above via
`_convert_date_to_month_year`, so its months/years are those of the parsed
start date and of the *unadjusted* end date; on a parse failure the source
falls back to the raw-range dict. -/
def convertDateRangeToStructured (startS endS : String) (isExclusiveEnd : Bool) :
    Periodo :=
  match parseDate startS, parseDate endS with
  | some st, some en =>
    let enAdj := if isExclusiveEnd then prevDay en else en
    if st.d = 1 ∧ st.y = enAdj.y ∧ st.m = enAdj.m ∧ 28 ≤ enAdj.d then
      .mesAno st.m st.y
    else if st.d = 1 ∧ st.y = enAdj.y then
      .inicioFim st.m st.y enAdj.m enAdj.y
    else
      .inicioFim st.m st.y en.m en.y
  | _, _ => .rawRange startS endS isExclusiveEnd

/-- Structure → half-open interval → structure (the interval produced by
`convert_structured_to_ranges` always uses the exclusive `Data_<` bound). -/
def roundTrip (p : Periodo) : Option Periodo :=
  (convertStructuredToRanges p).map fun r => convertDateRangeToStructured r.1 r.2 true

/-! ## C1 — round-trip of structured periods -/

theorem toDigit_digitChar (k : Nat) (hk : k < 10) :
    toDigit (digitChar k) = some k := by
  interval_cases k <;> decide

theorem daysInMonth_ge_28 (y m : Nat) : 28 ≤ daysInMonth y m := by
  unfold daysInMonth
  split
  · split <;> decide
  · split <;> decide

theorem daysInMonth_le_31 (y m : Nat) : daysInMonth y m ≤ 31 := by
  unfold daysInMonth
  split
  · split <;> decide
  · split <;> decide

theorem parseDate_formatDate (y m d : Nat) (hy : y ≤ 9999)
    (hm1 : 1 ≤ m) (hm2 : m ≤ 12) (hd1 : 1 ≤ d) (hd2 : d ≤ daysInMonth y m) :
    parseDate (formatDate y m d) = some ⟨y, m, d⟩ := by
  have e4 : pad4L y = [digitChar (y / 1000), digitChar (y / 100 % 10),
      digitChar (y / 10 % 10), digitChar (y % 10)] := by
    unfold pad4L
    rw [if_pos (by omega)]
  have e2m : pad2L m = [digitChar (m / 10), digitChar (m % 10)] := by
    unfold pad2L
    rw [if_pos (by omega)]
  have hd31 : d ≤ 31 := le_trans hd2 (daysInMonth_le_31 y m)
  have e2d : pad2L d = [digitChar (d / 10), digitChar (d % 10)] := by
    unfold pad2L
    rw [if_pos (by omega)]
  unfold formatDate
  rw [e4, e2m, e2d]
  unfold parseDate
  simp only [List.cons_append, List.nil_append]
  rw [if_pos (by simp)]
  rw [toDigit_digitChar (y / 1000) (by omega),
    toDigit_digitChar (y / 100 % 10) (by omega),
    toDigit_digitChar (y / 10 % 10) (by omega),
    toDigit_digitChar (y % 10) (by omega),
    toDigit_digitChar (m / 10) (by omega),
    toDigit_digitChar (m % 10) (by omega),
    toDigit_digitChar (d / 10) (by omega),
    toDigit_digitChar (d % 10) (by omega)]
  dsimp only
  have hyy : y / 1000 * 1000 + y / 100 % 10 * 100 + y / 10 % 10 * 10 + y % 10 = y := by
    omega
  have hmm : m / 10 * 10 + m % 10 = m := by omega
  have hdd : d / 10 * 10 + d % 10 = d := by omega
  rw [hyy, hmm, hdd, if_pos ⟨hm1, hm2, hd1, hd2⟩]

/-- Computation rule for `convertDateRangeToStructured` (exclusive end) once
both bounds parse. -/
theorem convertDateRangeToStructured_eq (st en : Date) (startS endS : String)
    (h1 : parseDate startS = some st) (h2 : parseDate endS = some en) :
    convertDateRangeToStructured startS endS true =
      (if st.d = 1 ∧ st.y = (prevDay en).y ∧ st.m = (prevDay en).m ∧
          28 ≤ (prevDay en).d then
        Periodo.mesAno st.m st.y
      else if st.d = 1 ∧ st.y = (prevDay en).y then
        Periodo.inicioFim st.m st.y (prevDay en).m (prevDay en).y
      else Periodo.inicioFim st.m st.y en.m en.y) := by
  unfold convertDateRangeToStructured
  rw [h1, h2]
  rfl

theorem prevDay_firstOfMonth (y m : Nat) (hm1 : 1 ≤ m) (hm2 : m ≤ 12) :
    prevDay ⟨y, m + 1, 1⟩ = ⟨y, m, daysInMonth y m⟩ := by
  unfold prevDay
  dsimp only
  rw [if_neg (by omega), if_pos (by omega)]
  simp

theorem prevDay_firstOfJan (y : Nat) :
    prevDay ⟨y + 1, 1, 1⟩ = ⟨y, 12, 31⟩ := by
  unfold prevDay
  dsimp only
  rw [if_neg (by omega), if_neg (by omega)]
  simp

theorem roundTrip_mesAno (m y : Nat) (hm1 : 1 ≤ m) (hm2 : m ≤ 12)
    (hy1 : 1 ≤ y) (hy2 : y ≤ 9998) :
    roundTrip (Periodo.mesAno m y) = some (Periodo.mesAno m y) := by
  unfold roundTrip
  by_cases h12 : m = 12
  · subst h12
    have hconv : convertStructuredToRanges (Periodo.mesAno 12 y)
        = some (formatDate y 12 1, formatDate (y + 1) 1 1) := by
      simp [convertStructuredToRanges, nextMonth]
    rw [hconv, Option.map_some']
    rw [convertDateRangeToStructured_eq ⟨y, 12, 1⟩ ⟨y + 1, 1, 1⟩ _ _
      (parseDate_formatDate y 12 1 (by omega) (by omega) (by omega) (by omega)
        (le_trans (by decide) (daysInMonth_ge_28 y 12)))
      (parseDate_formatDate (y + 1) 1 1 (by omega) (by omega) (by omega) (by omega)
        (le_trans (by decide) (daysInMonth_ge_28 (y + 1) 1)))]
    rw [prevDay_firstOfJan y]
    rw [if_pos ⟨rfl, rfl, rfl, show (28 : Nat) ≤ 31 by decide⟩]
  · have hconv : convertStructuredToRanges (Periodo.mesAno m y)
        = some (formatDate y m 1, formatDate y (m + 1) 1) := by
      simp [convertStructuredToRanges, nextMonth, h12]
    rw [hconv, Option.map_some']
    rw [convertDateRangeToStructured_eq ⟨y, m, 1⟩ ⟨y, m + 1, 1⟩ _ _
      (parseDate_formatDate y m 1 (by omega) hm1 hm2 (by omega)
        (le_trans (by decide) (daysInMonth_ge_28 y m)))
      (parseDate_formatDate y (m + 1) 1 (by omega) (by omega) (by omega) (by omega)
        (le_trans (by decide) (daysInMonth_ge_28 y (m + 1))))]
    rw [prevDay_firstOfMonth y m hm1 hm2]
    rw [if_pos ⟨rfl, rfl, rfl, daysInMonth_ge_28 y m⟩]

theorem roundTrip_inicioFim (m1 m2 y : Nat) (h1 : 1 ≤ m1) (h2 : m1 < m2)
    (h3 : m2 ≤ 12) (hy1 : 1 ≤ y) (hy2 : y ≤ 9998) :
    roundTrip (Periodo.inicioFim m1 y m2 y) = some (Periodo.inicioFim m1 y m2 y) := by
  unfold roundTrip
  by_cases h12 : m2 = 12
  · subst h12
    have hconv : convertStructuredToRanges (Periodo.inicioFim m1 y 12 y)
        = some (formatDate y m1 1, formatDate (y + 1) 1 1) := by
      simp [convertStructuredToRanges, nextMonth]
    rw [hconv, Option.map_some']
    rw [convertDateRangeToStructured_eq ⟨y, m1, 1⟩ ⟨y + 1, 1, 1⟩ _ _
      (parseDate_formatDate y m1 1 (by omega) h1 (by omega) (by omega)
        (le_trans (by decide) (daysInMonth_ge_28 y m1)))
      (parseDate_formatDate (y + 1) 1 1 (by omega) (by omega) (by omega) (by omega)
        (le_trans (by decide) (daysInMonth_ge_28 (y + 1) 1)))]
    rw [prevDay_firstOfJan y]
    rw [if_neg (fun hc => absurd hc.2.2.1 (by
        show ¬ m1 = 12
        omega)),
      if_pos ⟨rfl, rfl⟩]
  · have hconv : convertStructuredToRanges (Periodo.inicioFim m1 y m2 y)
        = some (formatDate y m1 1, formatDate y (m2 + 1) 1) := by
      simp [convertStructuredToRanges, nextMonth, h12]
    rw [hconv, Option.map_some']
    rw [convertDateRangeToStructured_eq ⟨y, m1, 1⟩ ⟨y, m2 + 1, 1⟩ _ _
      (parseDate_formatDate y m1 1 (by omega) h1 (by omega) (by omega)
        (le_trans (by decide) (daysInMonth_ge_28 y m1)))
      (parseDate_formatDate y (m2 + 1) 1 (by omega) (by omega) (by omega) (by omega)
        (le_trans (by decide) (daysInMonth_ge_28 y (m2 + 1))))]
    rw [prevDay_firstOfMonth y m2 (by omega) h3]
    rw [if_neg (fun hc => absurd hc.2.2.1 (by
        show ¬ m1 = m2
        omega)),
      if_pos ⟨rfl, rfl⟩]

/-- C1 counterexample: the `Year` variant does not survive the round trip —
`Year(2015)` maps to `[2015-01-01, 2016-01-01)`, which
`_convert_date_range_to_structured` re-structures as the *month range*
January–December 2015, not as `Year(2015)` (the function has no year
branch). -/
theorem C1_period_roundtrip_counterexample :
    roundTrip (Periodo.anoOnly 2015)
        = some (Periodo.inicioFim 1 2015 12 2015) ∧
      Periodo.inicioFim 1 2015 12 2015 ≠ Periodo.anoOnly 2015 := by
  constructor <;> decide

/-- C1 (corrected): the interval round trip reproduces `ExactMonth` exactly
(for any month 1–12 and any 4-digit-formattable year), and reproduces a
`MonthRange` exactly when its two months share a year and the start month is
strictly earlier; `Year` instead re-structures as the equivalent
January–December month range, and a cross-year month range re-structures
with the month of the unadjusted exclusive bound. -/
theorem C1_period_roundtrip_amended :
    (∀ m y, 1 ≤ m → m ≤ 12 → 1 ≤ y → y ≤ 9998 →
      roundTrip (Periodo.mesAno m y) = some (Periodo.mesAno m y)) ∧
    (∀ m1 m2 y, 1 ≤ m1 → m1 < m2 → m2 ≤ 12 → 1 ≤ y → y ≤ 9998 →
      roundTrip (Periodo.inicioFim m1 y m2 y)
        = some (Periodo.inicioFim m1 y m2 y)) :=
  ⟨fun m y hm1 hm2 hy1 hy2 => roundTrip_mesAno m y hm1 hm2 hy1 hy2,
   fun m1 m2 y h1 h2 h3 hy1 hy2 => roundTrip_inicioFim m1 m2 y h1 h2 h3 hy1 hy2⟩

/-- Witness for `C1_period_roundtrip_amended` at the spec's own example
`ExactMonth(7, 2015)` and at the month range June–July 2015. -/
theorem C1_period_roundtrip_witness :
    roundTrip (Periodo.mesAno 7 2015) = some (Periodo.mesAno 7 2015) ∧
      roundTrip (Periodo.inicioFim 6 2015 7 2015)
        = some (Periodo.inicioFim 6 2015 7 2015) :=
  ⟨C1_period_roundtrip_amended.1 7 2015 (by decide) (by decide) (by decide) (by decide),
   C1_period_roundtrip_amended.2 6 7 2015 (by decide) (by decide) (by decide)
     (by decide) (by decide)⟩

/-! ## Pattern-matching combinators

Character-level scanners modelling the regular expressions of
`FILTER_REMOVAL_CONFIG`.  `\b` is the word-boundary test, `\s+` is
`matchWs1`, `\w+` is `captureWord`; optional groups are matched greedily
(for the patterns below, greedy matching and regex backtracking coincide,
since no optional group's text can also begin the literal that follows it).
`finditer` is modelled by trying every boundary position. -/

def isWordChar (c : Char) : Bool := c.isAlphanum || c = '_'

def matchLit : List Char → List Char → Option (List Char)
  | [], cs => some cs
  | p :: ps, c :: cs => if c = p then matchLit ps cs else none
  | _ :: _, [] => none

/-- `\s+`. -/
def matchWs1 : List Char → Option (List Char)
  | c :: cs => if isPySpace c then some (cs.dropWhile isPySpace) else none
  | [] => none

/-- An optional group, matched greedily. -/
def matchOpt (g : List Char → Option (List Char)) (cs : List Char) : List Char :=
  (g cs).getD cs

/-- `(\w+)`: a maximal non-empty run of word characters. -/
def captureWord (cs : List Char) : Option (String × List Char) :=
  let w := cs.takeWhile isWordChar
  if w.isEmpty then none else some (⟨w⟩, cs.drop w.length)

/-- An optional trailing `s?`. -/
def matchOptS : List Char → List Char
  | 's' :: t => t
  | cs => cs

/-- `filtr[oa]s?`. -/
def matchFiltro (cs : List Char) : Option (List Char) :=
  (matchLit "filtr".data cs).bind fun r =>
    match r with
    | 'o' :: t => some (matchOptS t)
    | 'a' :: t => some (matchOptS t)
    | _ => none

/-- `filtr[oa]s?\s+de\s+`. -/
def matchFiltroDe (cs : List Char) : Option (List Char) :=
  ((((matchFiltro cs).bind matchWs1).bind (matchLit "de".data)).bind matchWs1)

/-- Try a matcher at every position whose left neighbour is not a word
character (the `\b` of a pattern starting with a word character). -/
def scanB (m : List Char → Bool) : Option Char → List Char → Bool
  | _, [] => false
  | prev, c :: rest =>
    ((match prev with
      | none => true
      | some pc => !isWordChar pc) && m (c :: rest)) || scanB m (some c) rest

/-- Collect the captures of a term-capturing matcher at every boundary
position (models `re.finditer` over the removal patterns; overlapping
positions are all tried). -/
def scanCapturesB (m : List Char → Option String) : Option Char → List Char → List String
  | _, [] => []
  | prev, c :: rest =>
    (if (match prev with
        | none => true
        | some pc => !isWordChar pc) then
      match m (c :: rest) with
      | some t => [t]
      | none => []
    else []) ++ scanCapturesB m (some c) rest

/-! ## `FILTER_REMOVAL_CONFIG` (`src/config/agent_config.py`) -/

/-- `clear_all_patterns[0]`, `[1]` and `[5]`:
`\b<verb>\s+todos\s+(?:os\s+)?filtros`. -/
def caTodosFiltros (verb : String) (cs : List Char) : Bool :=
  (((((matchLit verb.data cs).bind matchWs1).bind
      (matchLit "todos".data)).bind matchWs1).map
    (matchOpt (fun x => (matchLit "os".data x).bind matchWs1)) |>.bind
    (matchLit "filtros".data)).isSome

/-- `clear_all_patterns[2]`: `\bsem\s+filtros?(?:\s+algum)?$`. -/
def caSemFiltros (cs : List Char) : Bool :=
  match ((matchLit "sem".data cs).bind matchWs1).bind (matchLit "filtro".data) with
  | some r =>
    (matchOpt (fun x => (matchWs1 x).bind (matchLit "algum".data))
      (matchOptS r)).isEmpty
  | none => false

/-- `clear_all_patterns[3]`: `\bsem\s+nenhum\s+filtro`. -/
def caSemNenhum (cs : List Char) : Bool :=
  ((((matchLit "sem".data cs).bind matchWs1).bind
    (matchLit "nenhum".data)).bind matchWs1 |>.bind
    (matchLit "filtro".data)).isSome

/-- `clear_all_patterns[4]`: `\bzerar\s+filtros?`. -/
def caZerar (cs : List Char) : Bool :=
  (((matchLit "zerar".data cs).bind matchWs1).bind (matchLit "filtro".data)).isSome

/-- `clear_all_patterns[6]`: `\blimpar\s+contexto`. -/
def caLimparContexto (cs : List Char) : Bool :=
  (((matchLit "limpar".data cs).bind matchWs1).bind (matchLit "contexto".data)).isSome

/-- `FilterRemovalDetector._is_clear_all_command`, in the configured pattern
order. -/
def isClearAllCommand (cs : List Char) : Bool :=
  scanB (caTodosFiltros "limpar") none cs ||
  scanB (caTodosFiltros "remover") none cs ||
  scanB caSemFiltros none cs ||
  scanB caSemNenhum none cs ||
  scanB caZerar none cs ||
  scanB (caTodosFiltros "apagar") none cs ||
  scanB caLimparContexto none cs

/-- `removal_patterns[0]`:
`\bremov(?:er|a|e)\s+(?:o\s+)?filtr[oa]s?\s+de\s+(\w+)`. -/
def rmRemover (cs : List Char) : Option String :=
  ((matchLit "remov".data cs).bind fun r =>
    match r with
    | 'e' :: 'r' :: t => some t
    | 'a' :: t => some t
    | 'e' :: t => some t
    | _ => none).bind matchWs1 |>.map
    (matchOpt (fun x => (matchLit "o".data x).bind matchWs1)) |>.bind
    (fun r => (matchFiltroDe r).bind (fun r2 => (captureWord r2).map Prod.fst))

/-- `removal_patterns[1]`: `\bsem\s+filtr[oa]s?\s+de\s+(\w+)`. -/
def rmSem (cs : List Char) : Option String :=
  ((matchLit "sem".data cs).bind matchWs1).bind
    (fun r => (matchFiltroDe r).bind (fun r2 => (captureWord r2).map Prod.fst))

/-- `removal_patterns[2]`, `[3]` and the common shape of `[4]`/`[5]`:
`\b<verb>\s+(?:filtr[oa]s?\s+de\s+)?(\w+)`. -/
def rmVerbTerm (verb : String) (cs : List Char) : Option String :=
  ((matchLit verb.data cs).bind matchWs1).bind
    (fun r => (captureWord (matchOpt matchFiltroDe r)).map Prod.fst)

/-- `removal_patterns[4]`: `\b(?:deletar|apagar)\s+...`. -/
def rmDeletarApagar (cs : List Char) : Option String :=
  match rmVerbTerm "deletar" cs with
  | some t => some t
  | none => rmVerbTerm "apagar" cs

/-- `removal_patterns[5]`: `\b(?:tirar|retirar)\s+...`. -/
def rmTirarRetirar (cs : List Char) : Option String :=
  match rmVerbTerm "tirar" cs with
  | some t => some t
  | none => rmVerbTerm "retirar" cs

/-- `removal_patterns[6]`: `\bn[ãa]o\s+filtrar\s+(?:por\s+)?(\w+)`. -/
def rmNaoFiltrar (cs : List Char) : Option String :=
  ((match cs with
    | 'n' :: 'ã' :: 'o' :: t => some t
    | 'n' :: 'a' :: 'o' :: t => some t
    | _ => none).bind matchWs1).bind (matchLit "filtrar".data) |>.bind
    matchWs1 |>.bind
    (fun r =>
      (captureWord (matchOpt (fun x => (matchLit "por".data x).bind matchWs1) r)).map
        Prod.fst)

/-- `FILTER_REMOVAL_CONFIG["field_mapping"]`. -/
def fieldMapping : List (String × List String) :=
  [("cidade", ["Municipio_Cliente"]), ("cidades", ["Municipio_Cliente"]),
   ("municipio", ["Municipio_Cliente"]),
   ("estado", ["UF_Cliente"]), ("estados", ["UF_Cliente"]), ("uf", ["UF_Cliente"]),
   ("regiao", ["UF_Cliente", "Municipio_Cliente"]),
   ("cliente", ["Cod_Cliente"]), ("clientes", ["Cod_Cliente"]),
   ("segmento", ["Cod_Segmento_Cliente"]),
   ("data", ["Data", "Data_>=", "Data_<"]), ("datas", ["Data", "Data_>=", "Data_<"]),
   ("periodo", ["Data_>=", "Data_<"]), ("mes", ["Data_>=", "Data_<"]),
   ("ano", ["Data_>=", "Data_<"]),
   ("produto", ["Cod_Familia_Produto", "Cod_Grupo_Produto", "Cod_Linha_Produto",
     "Des_Linha_Produto"]),
   ("produtos", ["Cod_Familia_Produto", "Cod_Grupo_Produto", "Cod_Linha_Produto",
     "Des_Linha_Produto"]),
   ("familia", ["Cod_Familia_Produto"]), ("grupo", ["Cod_Grupo_Produto"]),
   ("linha", ["Cod_Linha_Produto", "Des_Linha_Produto"]),
   ("vendedor", ["Cod_Vendedor"]), ("vendedores", ["Cod_Vendedor"]),
   ("representante", ["Cod_Vendedor", "Cod_Regiao_Vendedor"])]

/-- `FILTER_REMOVAL_CONFIG["category_mapping"]`. -/
def categoryMapping : List (String × List String) :=
  [("geografico", ["UF_Cliente", "Municipio_Cliente"]),
   ("geograficos", ["UF_Cliente", "Municipio_Cliente"]),
   ("temporal", ["Data", "Data_>=", "Data_<", "Data_<=", "Data_>"]),
   ("temporais", ["Data", "Data_>=", "Data_<", "Data_<=", "Data_>"])]

def lookupMap : List (String × List String) → String → Option (List String)
  | [], _ => none
  | (k, v) :: r, t => if k = t then some v else lookupMap r t

/-- First-seen-order deduplication (models the Python `set` accumulation,
whose final `list(...)` order the source does not rely on). -/
def dedupL (l : List String) : List String :=
  l.foldl (fun acc x => if x ∈ acc then acc else acc ++ [x]) []

/-- `FilterRemovalDetector._map_term_to_fields`: only fields present in the
current context are produced. -/
def mapTermToFields (term : String) (ctx : Ctx) : List String :=
  let f1 :=
    match lookupMap fieldMapping term with
    | some fs => fs.filter (fun f => (lookupC ctx f).isSome)
    | none => []
  let f2 :=
    match lookupMap categoryMapping term with
    | some fs => fs.filter (fun f => (lookupC ctx f).isSome)
    | none => []
  dedupL (f1 ++ f2)

/-- `FilterRemovalDetector._detect_specific_removals`. -/
def detectSpecificRemovals (ql : List Char) (ctx : Ctx) : List String :=
  let terms :=
    scanCapturesB rmRemover none ql ++
    scanCapturesB rmSem none ql ++
    scanCapturesB (rmVerbTerm "limpar") none ql ++
    scanCapturesB (rmVerbTerm "ignorar") none ql ++
    scanCapturesB rmDeletarApagar none ql ++
    scanCapturesB rmTirarRetirar none ql ++
    scanCapturesB rmNaoFiltrar none ql
  dedupL (terms.flatMap (fun t => mapTermToFields t ctx))

/-- `FilterRemovalDetector.detect_removal_intent`: the clear-all check
short-circuits field-level detection. -/
def detectRemovalIntent (q : String) (ctx : Ctx) : Bool × List String × Bool :=
  let ql := pstripL (q.data.map Char.toLower)
  if isClearAllCommand ql then (true, [], true)
  else
    let fields := detectSpecificRemovals ql ctx
    if fields.isEmpty then (false, [], false) else (true, fields, false)

/-- A change message of `apply_removals`, modelled structurally. -/
inductive RemovalChange where
  | clearAll (n : Nat)
  | removed (field : String)
  | nothingToRemove
deriving DecidableEq, Repr

/-- The number of non-empty filter values in a context
(`len([v for v in ctx.values() if v is not None and v != [] and v != ""])`). -/
def countNonEmpty (ctx : Ctx) : Nat :=
  (ctx.filter (fun p => truthyV p.2)).length

/-- `FilterRemovalDetector.apply_removals`. -/
def applyRemovals (ctx : Ctx) (fields : List String) (clearAll : Bool) :
    Ctx × List RemovalChange :=
  if clearAll then ([], [RemovalChange.clearAll (countNonEmpty ctx)])
  else
    let st := fields.foldl (fun (st : Ctx × List RemovalChange) f =>
      if (lookupC st.1 f).isSome then
        (eraseC st.1 f, st.2 ++ [RemovalChange.removed f])
      else st) (ctx, [])
    if st.2.isEmpty then (st.1, [RemovalChange.nothingToRemove]) else st

/-! ## C9 — the clear-all command -/

/-- C9 (confirmed): on any non-empty context, the utterance
"limpar todos os filtros" is detected as a clear-all command (with no
field-level targets — the clear-all check short-circuits), and applying it
empties the context with a single change entry carrying the number of
non-empty filters removed. -/
theorem C9_clear_all_command (ctx : Ctx) (h : ctx ≠ []) :
    detectRemovalIntent "limpar todos os filtros" ctx = (true, [], true) ∧
      applyRemovals ctx [] true
        = ([], [RemovalChange.clearAll (countNonEmpty ctx)]) := by
  constructor
  · have hca : isClearAllCommand
        (pstripL ("limpar todos os filtros".data.map Char.toLower)) = true := by
      decide
    unfold detectRemovalIntent
    rw [if_pos hca]
  · unfold applyRemovals
    rw [if_pos rfl]

/-- Witness for `C9_clear_all_command` at a concrete context. -/
theorem C9_clear_all_command_witness :
    detectRemovalIntent "limpar todos os filtros" [("UF_Cliente", Value.s "SP")]
        = (true, [], true) ∧
      applyRemovals [("UF_Cliente", Value.s "SP")] [] true
        = ([], [RemovalChange.clearAll 1]) :=
  C9_clear_all_command [("UF_Cliente", Value.s "SP")] (by decide)

/-! ## `JSONFilterManager.aplicar_filtros_desabilitados`
(`src/filters/core/manager.py`) -/

def pyReprItems : List String → String
  | [] => ""
  | [x] => "'" ++ x ++ "'"
  | x :: y :: t => "'" ++ x ++ "', " ++ pyReprItems (y :: t)

/-- Python `str(value)` for the values a context holds. -/
def pyStr : Value → String
  | .null => "None"
  | .s x => x
  | .l xs => "[" ++ pyReprItems xs ++ "]"

/-- `JSONFilterManager.aplicar_filtros_desabilitados`: with a non-empty
disabled set, keep each entry unless its `campo:valor` identifier is
disabled, treating a complete `Data_>=`/`Data_<` pair through the composite
`Data_range:<start>_<end>` identifier (entries of a complete pair with a
falsy bound are dropped). -/
def aplicarFiltrosDesabilitados (ctx : Ctx) (disabled : List String) : Ctx :=
  if disabled = [] then ctx
  else
    ctx.foldl (fun acc p =>
      if (p.1 = "Data_>=" ∨ p.1 = "Data_<") ∧
          (lookupC ctx "Data_>=").isSome ∧ (lookupC ctx "Data_<").isSome then
        let sv := (lookupC ctx "Data_>=").getD Value.null
        let ev := (lookupC ctx "Data_<").getD Value.null
        if truthyV sv ∧ truthyV ev then
          if ("Data_range:" ++ pyStr sv ++ "_" ++ pyStr ev) ∈ disabled then acc
          else acc ++ [p]
        else acc
      else if (p.1 ++ ":" ++ pyStr p.2) ∈ disabled then acc
      else acc ++ [p]) []

/-! ## C10 — applying the disabled-filter set -/

theorem foldl_append_filterlike {α : Type} (g : List α → α → List α)
    (q : α → Bool) (hg : ∀ acc p, g acc p = if q p then acc ++ [p] else acc) :
    ∀ (l acc : List α), l.foldl g acc = acc ++ l.filter q := by
  intro l
  induction l with
  | nil => intro acc; simp
  | cons p r ih =>
    intro acc
    rw [List.foldl_cons, hg]
    by_cases hq : q p = true
    · rw [if_pos hq, ih, List.filter_cons, if_pos hq]
      simp
    · rw [Bool.not_eq_true] at hq
      rw [if_neg (by simp [hq]), ih, List.filter_cons, hq]
      simp

/-- C10 counterexample: in the context
`{Data_>=: "", Data_<: "2016-09-01"}` with the (non-empty, unrelated)
disabled set `{"X:Y"}`, *both* range entries are dropped although neither
their individual identifiers nor the composite range identifier is
disabled — the claimed keep-iff-composite-not-disabled rule fails for a pair
with a falsy bound. -/
theorem C10_disabled_filters_counterexample :
    aplicarFiltrosDesabilitados
        [("Data_>=", Value.s ""), ("Data_<", Value.s "2016-09-01")] ["X:Y"] = [] ∧
      ("Data_>=", Value.s "")
        ∈ ([("Data_>=", Value.s ""), ("Data_<", Value.s "2016-09-01")] : Ctx) ∧
      ("Data_range:" ++ "" ++ "_" ++ "2016-09-01") ∉ (["X:Y"] : List String) ∧
      ("Data_>=" ++ ":" ++ "") ∉ (["X:Y"] : List String) := by
  refine ⟨by decide, by decide, by decide, by decide⟩

/-- C10 (corrected): with an empty disabled set the context is returned
unchanged; with a non-empty disabled set an entry is retained (with its
value unchanged) iff — when it is a bound of a complete `Data_>=`/`Data_<`
pair — both bound values are truthy and the composite
`Data_range:<start>_<end>` identifier is not disabled, and otherwise — its
own `field:value` identifier is not disabled.  (The claim omitted the
truthiness proviso: a complete pair with an empty bound is dropped outright.) -/
theorem C10_disabled_filters_amended :
    (∀ ctx : Ctx, aplicarFiltrosDesabilitados ctx [] = ctx) ∧
    (∀ (ctx : Ctx) (disabled : List String), disabled ≠ [] →
      ∀ f v, ((f, v) ∈ aplicarFiltrosDesabilitados ctx disabled ↔
        ((f, v) ∈ ctx ∧
          (if (f = "Data_>=" ∨ f = "Data_<") ∧
              (lookupC ctx "Data_>=").isSome ∧ (lookupC ctx "Data_<").isSome then
            truthyV ((lookupC ctx "Data_>=").getD Value.null) = true ∧
            truthyV ((lookupC ctx "Data_<").getD Value.null) = true ∧
            ("Data_range:" ++ pyStr ((lookupC ctx "Data_>=").getD Value.null) ++
              "_" ++ pyStr ((lookupC ctx "Data_<").getD Value.null)) ∉ disabled
          else (f ++ ":" ++ pyStr v) ∉ disabled)))) := by
  constructor
  · intro ctx
    unfold aplicarFiltrosDesabilitados
    rw [if_pos rfl]
  · intro ctx disabled hd f v
    unfold aplicarFiltrosDesabilitados
    rw [if_neg hd]
    rw [foldl_append_filterlike _
      (fun p =>
        if (p.1 = "Data_>=" ∨ p.1 = "Data_<") ∧
            (lookupC ctx "Data_>=").isSome ∧ (lookupC ctx "Data_<").isSome then
          truthyV ((lookupC ctx "Data_>=").getD Value.null) &&
          truthyV ((lookupC ctx "Data_<").getD Value.null) &&
          !decide (("Data_range:" ++ pyStr ((lookupC ctx "Data_>=").getD Value.null) ++
            "_" ++ pyStr ((lookupC ctx "Data_<").getD Value.null)) ∈ disabled)
        else !decide ((p.1 ++ ":" ++ pyStr p.2) ∈ disabled))
      ?_ ctx []]
    · rw [List.nil_append, List.mem_filter]
      constructor
      · rintro ⟨hmem, hq⟩
        refine ⟨hmem, ?_⟩
        split at hq
        · rename_i hcond
          rw [if_pos hcond]
          simp only [Bool.and_eq_true, Bool.not_eq_true', decide_eq_false_iff_not] at hq
          exact ⟨hq.1.1, hq.1.2, hq.2⟩
        · rename_i hcond
          rw [if_neg hcond]
          simp only [Bool.not_eq_true', decide_eq_false_iff_not] at hq
          exact hq
      · rintro ⟨hmem, hq⟩
        refine ⟨hmem, ?_⟩
        split at hq
        · rename_i hcond
          simp only [if_pos hcond]
          simp only [Bool.and_eq_true, Bool.not_eq_true', decide_eq_false_iff_not]
          exact ⟨⟨hq.1, hq.2.1⟩, hq.2.2⟩
        · rename_i hcond
          simp only [if_neg hcond]
          simp only [Bool.not_eq_true', decide_eq_false_iff_not]
          exact hq
    · intro acc p
      by_cases h1 : (p.1 = "Data_>=" ∨ p.1 = "Data_<") ∧
          (lookupC ctx "Data_>=").isSome ∧ (lookupC ctx "Data_<").isSome
      · rw [if_pos h1]
        simp only [if_pos h1]
        by_cases h2 : truthyV ((lookupC ctx "Data_>=").getD Value.null) = true ∧
            truthyV ((lookupC ctx "Data_<").getD Value.null) = true
        · rw [if_pos h2]
          by_cases h3 : ("Data_range:" ++ pyStr ((lookupC ctx "Data_>=").getD Value.null) ++
              "_" ++ pyStr ((lookupC ctx "Data_<").getD Value.null)) ∈ disabled
          · rw [if_pos h3, if_neg (by simp [h2.1, h2.2, h3])]
          · rw [if_neg h3, if_pos (by simp [h2.1, h2.2, h3])]
        · rw [if_neg h2, if_neg (by
            intro hc
            simp only [Bool.and_eq_true] at hc
            exact h2 ⟨hc.1.1, hc.1.2⟩)]
      · rw [if_neg h1]
        simp only [if_neg h1]
        by_cases h3 : (p.1 ++ ":" ++ pyStr p.2) ∈ disabled
        · rw [if_pos h3, if_neg (by simp [h3])]
        · rw [if_neg h3, if_pos (by simp [h3])]

/-- Witness for `C10_disabled_filters_amended` at a concrete input. -/
theorem C10_disabled_filters_witness :
    ("Municipio_Cliente", Value.s "CURITIBA")
      ∈ aplicarFiltrosDesabilitados
        [("UF_Cliente", Value.s "SP"), ("Municipio_Cliente", Value.s "CURITIBA")]
        ["UF_Cliente:SP"] :=
  (C10_disabled_filters_amended.2
    [("UF_Cliente", Value.s "SP"), ("Municipio_Cliente", Value.s "CURITIBA")]
    ["UF_Cliente:SP"] (by decide) "Municipio_Cliente" (Value.s "CURITIBA")).mpr
    ⟨by decide, by decide⟩

/-! ## `TextNormalizer.parse_temporal_entities` (`src/text_normalizer.py`)

The month/year, between-months and bare-year stages of
`parse_temporal_entities` are regex searches every one of which requires a
four-consecutive-digit group (`\d{4}`); each stage is therefore modelled as a
scanner gated on the presence of such a run — on a text without four
consecutive digits every one of those regexes fails, exactly as in the
source.  The dataset-anchored stages (`_detect_last_month_reference`,
`_detect_relative_period_reference`) are modelled in full.  The
`Data_>=`/`Data_<` result strings are produced with `formatDate`, as the
source's `f"{year:04d}-{month:02d}-01"`. -/

/-- A run of four consecutive digits somewhere in the text (necessary for
any of the `\d{4}` patterns to match). -/
def hasFourDigitRun : List Char → Bool
  | a :: b :: c :: d :: rest =>
    (a.isDigit && b.isDigit && c.isDigit && d.isDigit) ||
      hasFourDigitRun (b :: c :: d :: rest)
  | _ => false

/-- `(\d{4})\b`. -/
def match4Digits : List Char → Option (Nat × List Char)
  | a :: b :: c :: d :: rest =>
    match toDigit a, toDigit b, toDigit c, toDigit d with
    | some x1, some x2, some x3, some x4 =>
      if (match rest with
          | r :: _ => !isWordChar r
          | [] => true) then
        some (x1 * 1000 + x2 * 100 + x3 * 10 + x4, rest)
      else none
    | _, _, _, _ => none
  | _ => none

/-- The Portuguese month-name table of `parse_temporal_entities`. -/
def monthMapping : List (String × Nat) :=
  [("janeiro", 1), ("jan", 1), ("fevereiro", 2), ("fev", 2),
   ("março", 3), ("mar", 3), ("marco", 3), ("abril", 4), ("abr", 4),
   ("maio", 5), ("mai", 5), ("junho", 6), ("jun", 6), ("julho", 7), ("jul", 7),
   ("agosto", 8), ("ago", 8), ("setembro", 9), ("set", 9), ("sep", 9),
   ("outubro", 10), ("out", 10), ("oct", 10), ("novembro", 11), ("nov", 11),
   ("dezembro", 12), ("dez", 12), ("dec", 12)]

def lookupMonthL : List (String × Nat) → String → Option Nat
  | [], _ => none
  | (k, v) :: r, s => if k = s then some v else lookupMonthL r s

def monthOf (s : String) : Option Nat := lookupMonthL monthMapping s

/-- A recognised month word at the current position. -/
def monthWord (cs : List Char) : Option (Nat × List Char) :=
  (captureWord cs).bind fun p => (monthOf p.1).map fun mn => (mn, p.2)

/-- A generic first-match boundary-aware scan. -/
def scanFirstB {α : Type} (m : List Char → Option α) :
    Option Char → List Char → Option α
  | _, [] => none
  | prev, c :: rest =>
    if (match prev with
        | none => true
        | some pc => !isWordChar pc) = true then
      match m (c :: rest) with
      | some v => some v
      | none => scanFirstB m (some c) rest
    else scanFirstB m (some c) rest

/-- `<mês>(/|\s+de\s+|\s+)<ano>` — the single month/year patterns. -/
def monthYearAt (cs : List Char) : Option (Nat × Nat) :=
  (captureWord cs).bind fun p =>
    (monthOf p.1).bind fun mn =>
      match p.2 with
      | '/' :: r2 => (match4Digits r2).map fun q => (mn, q.1)
      | r =>
        (matchWs1 r).bind fun r2 =>
          match (matchLit "de".data r2).bind matchWs1 with
          | some r4 => (match4Digits r4).map fun q => (mn, q.1)
          | none => (match4Digits r2).map fun q => (mn, q.1)

def monthYearStage (cs : List Char) : Option (Nat × Nat) :=
  if hasFourDigitRun cs then scanFirstB monthYearAt none cs else none

/-- `entre <mês> e <mês> de <ano>` / `de <mês> a <mês> de <ano>` — the
month-interval patterns. -/
def betweenAt (cs : List Char) : Option (Nat × Nat × Nat) :=
  (((matchLit "entre".data cs).bind matchWs1).bind fun r =>
    (monthWord r).bind fun p1 =>
      (((matchWs1 p1.2).bind (matchLit "e".data)).bind matchWs1).bind fun r3 =>
        (monthWord r3).bind fun p2 =>
          ((((matchWs1 p2.2).bind (matchLit "de".data)).bind matchWs1).bind
            fun r5 => (match4Digits r5).map fun q => (p1.1, p2.1, q.1)))
  <|>
  (((matchLit "de".data cs).bind matchWs1).bind fun r =>
    (monthWord r).bind fun p1 =>
      (((matchWs1 p1.2).bind (matchLit "a".data)).bind matchWs1).bind fun r3 =>
        (monthWord r3).bind fun p2 =>
          ((((matchWs1 p2.2).bind (matchLit "de".data)).bind matchWs1).bind
            fun r5 => (match4Digits r5).map fun q => (p1.1, p2.1, q.1)))

def betweenStage (cs : List Char) : Option (Nat × Nat × Nat) :=
  if hasFourDigitRun cs then scanFirstB betweenAt none cs else none

/-- `em <ano>` / `no ano de <ano>` / `durante <ano>` /
`(no )?per[íi]odo de <ano>` — the bare-year patterns. -/
def yearAt (cs : List Char) : Option Nat :=
  match ((matchLit "em".data cs).bind matchWs1).bind
      (fun r => (match4Digits r).map Prod.fst) with
  | some y => some y
  | none =>
    match ((((((matchLit "no".data cs).bind matchWs1).bind
        (matchLit "ano".data)).bind matchWs1).bind
        (matchLit "de".data)).bind matchWs1).bind
        (fun r => (match4Digits r).map Prod.fst) with
    | some y => some y
    | none =>
      match ((matchLit "durante".data cs).bind matchWs1).bind
          (fun r => (match4Digits r).map Prod.fst) with
      | some y => some y
      | none =>
        ((((match matchLit "período".data cs with
          | some r => some r
          | none => matchLit "periodo".data cs).bind matchWs1).bind
          (matchLit "de".data)).bind matchWs1).bind
          (fun r => (match4Digits r).map Prod.fst)

def yearStage (cs : List Char) : Option Nat :=
  if hasFourDigitRun cs then scanFirstB yearAt none cs else none

/-! ## Dataset context and the last-month / relative-period detectors -/

/-- `TextNormalizer.set_dataset_context`: the minimum/maximum of the `Data`
column; `last_month` (`max_date.strftime('%Y-%m')`) is carried as
`maxDate.y`/`maxDate.m`. -/
structure DatasetCtx where
  maxDate : Date
  minDate : Date
deriving DecidableEq, Repr

/-- The explicit last-month indicator phrases of
`_detect_last_month_reference`. -/
def lastMonthIndicators : List String :=
  ["último mês", "ultimo mês", "último mes", "ultimo mes",
   "mês anterior", "mes anterior", "mês passado", "mes passado",
   "último período", "ultimo período", "ultimo periodo",
   "mês mais recente", "mes mais recente", "período mais recente",
   "último mês completo", "ultimo mês completo",
   "dados mais recentes do mês", "dados mais recentes do mes",
   "análise do período mais recente", "analise do período mais recente",
   "analise do periodo mais recente"]

/-- The subtle co-occurrence indicator pairs. -/
def subtleIndicators : List (String × String) :=
  [("último", "mês"), ("ultimo", "mês"), ("último", "mes"), ("ultimo", "mes"),
   ("anterior", "mês"), ("anterior", "mes"), ("passado", "mês"), ("passado", "mes"),
   ("recente", "mês"), ("recente", "mes"), ("mais", "recente"),
   ("período", "recente"), ("periodo", "recente"), ("dados", "recentes")]

/-- `text.split()`: split on whitespace runs, dropping empties (fuelled). -/
def splitWsF : Nat → List Char → List String
  | 0, _ => []
  | _, [] => []
  | fuel + 1, c :: rest =>
    if isPySpace c then splitWsF fuel rest
    else
      let w := (c :: rest).takeWhile (fun x => !isPySpace x)
      (⟨w⟩ : String) :: splitWsF fuel ((c :: rest).drop w.length)

def splitWs (cs : List Char) : List String := splitWsF cs.length cs

/-- `words.index(w)` (guarded by membership in the source). -/
def idxOfW : List String → String → Nat
  | [], _ => 0
  | w :: r, x => if w = x then 0 else 1 + idxOfW r x

/-- The detection condition of `_detect_last_month_reference`: an explicit
indicator phrase occurs in the text, or a subtle pair co-occurs as words
within 15 words of each other with a month/period word in the surrounding
±5-word window. -/
def lastMonthFires (t : List Char) : Bool :=
  lastMonthIndicators.any (fun ind => infixB ind.data t) ||
  subtleIndicators.any (fun p =>
    infixB p.1.data t && infixB p.2.data t &&
    (let words := splitWs t
     decide (p.1 ∈ words) && decide (p.2 ∈ words) &&
     (let i1 := idxOfW words p.1
      let i2 := idxOfW words p.2
      decide (max i1 i2 - min i1 i2 ≤ 15) &&
      (let lo := min i1 i2 - 5
       let cw := (words.drop lo).take (max i1 i2 + 6 - lo)
       ["mês", "mes", "período", "periodo"].any (fun mw => decide (mw ∈ cw))))))

/-- `TextNormalizer._detect_last_month_reference`: when an indicator fires,
the half-open interval of the month of the dataset's maximum date. -/
def detectLastMonth (t : List Char) (c : DatasetCtx) : Option (String × String) :=
  if lastMonthFires t then
    some (formatDate c.maxDate.y c.maxDate.m 1,
      formatDate (nextMonth c.maxDate.y c.maxDate.m).1
        (nextMonth c.maxDate.y c.maxDate.m).2 1)
  else none

/-- `date.replace(day=1) - relativedelta(months=k)`, as a year/month pair. -/
def minusMonths (y m k : Nat) : Nat × Nat :=
  if k ≤ y * 12 + (m - 1) then
    ((y * 12 + (m - 1) - k) / 12, (y * 12 + (m - 1) - k) % 12 + 1)
  else (0, 1)

/-- `date + relativedelta(days=1)` on a valid date. -/
def nextDay (dt : Date) : Date :=
  if dt.d < daysInMonth dt.y dt.m then ⟨dt.y, dt.m, dt.d + 1⟩
  else if dt.m < 12 then ⟨dt.y, dt.m + 1, 1⟩
  else ⟨dt.y + 1, 1, 1⟩

def iterPrevDay : Nat → Date → Date
  | 0, dt => dt
  | k + 1, dt => iterPrevDay k (prevDay dt)

def digitsVal (cs : List Char) : Nat :=
  cs.foldl (fun a c => a * 10 + (toDigit c).getD 0) 0

def unitWords : List String :=
  ["meses", "mês", "mes", "anos", "ano", "dias", "dia",
   "trimestres", "trimestre", "semestres", "semestre"]

/-- The interval computed for "last N months". -/
def monthsBack (c : DatasetCtx) (n : Nat) : String × String :=
  let st := minusMonths c.maxDate.y c.maxDate.m n
  let en := nextMonth c.maxDate.y c.maxDate.m
  (formatDate st.1 st.2 1, formatDate en.1 en.2 1)

/-- The interval computed for "last N years". -/
def yearsBack (c : DatasetCtx) (n : Nat) : String × String :=
  let en := nextDay c.maxDate
  (formatDate (c.maxDate.y - n) 1 1, formatDate en.y en.m en.d)

/-- The interval computed for "last N days". -/
def daysBack (c : DatasetCtx) (n : Nat) : String × String :=
  let st := iterPrevDay (n - 1) c.maxDate
  let en := nextDay c.maxDate
  (formatDate st.y st.m st.d, formatDate en.y en.m en.d)

/-- `(?:últimos|ultimos)\s+(\d+)\s+<unit>` at the current position.  The
unit is classified by *substring* containment on the matched text in the
source's order — so `trimestres`/`semestres`, which contain `mes`, fall into
the months branch without the ×3/×6 conversion, exactly as in the source. -/
def relAt (c : DatasetCtx) (cs : List Char) : Option (String × String) :=
  ((match matchLit "últimos".data cs with
    | some r => some r
    | none => matchLit "ultimos".data cs).bind matchWs1).bind fun r =>
    (let ds := r.takeWhile Char.isDigit
     if ds.isEmpty then none
     else
       (matchWs1 (r.drop ds.length)).bind fun r2 =>
         (captureWord r2).bind fun p =>
           if p.1 ∈ unitWords then
             let n := digitsVal ds
             if infixB "mês".data p.1.data || infixB "mes".data p.1.data ||
                 infixB "meses".data p.1.data then
               some (monthsBack c n)
             else if infixB "ano".data p.1.data || infixB "anos".data p.1.data then
               some (yearsBack c n)
             else if infixB "dia".data p.1.data || infixB "dias".data p.1.data then
               some (daysBack c n)
             else if infixB "trimestre".data p.1.data then
               some (monthsBack c (n * 3))
             else if infixB "semestre".data p.1.data then
               some (monthsBack c (n * 6))
             else none
           else none)

/-- `TextNormalizer._detect_relative_period_reference` (every pattern needs
a digit). -/
def detectRelativePeriod (t : List Char) (c : DatasetCtx) : Option (String × String) :=
  if t.any Char.isDigit then scanFirstB (relAt c) none t else none

/-- The half-open interval of a single month (first day to first day of the
next month, with the December rollover of the source). -/
def monthRange (mn y : Nat) : String × String :=
  (formatDate y mn 1, formatDate (nextMonth y mn).1 (nextMonth y mn).2 1)

/-- The half-open interval of a same-year month span. -/
def monthSpanRange (m1 m2 y : Nat) : String × String :=
  (formatDate y m1 1, formatDate (nextMonth y m2).1 (nextMonth y m2).2 1)

/-- `TextNormalizer.parse_temporal_entities`, as the priority chain of the
source: the between-months patterns override the single month/year patterns;
the bare-year patterns run only when neither matched; the dataset-anchored
last-month and relative-period detectors run only when nothing matched and a
dataset context is set.  The result is the `(Data_>=, Data_<)` pair. -/
def parseTemporalEntities (text : String) (ctx : Option DatasetCtx) :
    Option (String × String) :=
  match betweenStage (pstripL (text.data.map Char.toLower)) with
  | some (m1, m2, y) => some (monthSpanRange m1 m2 y)
  | none =>
    match monthYearStage (pstripL (text.data.map Char.toLower)) with
    | some (mn, y) => some (monthRange mn y)
    | none =>
      match yearStage (pstripL (text.data.map Char.toLower)) with
      | some y => some (formatDate y 1 1, formatDate (y + 1) 1 1)
      | none =>
        match ctx with
        | some c =>
          match detectLastMonth (pstripL (text.data.map Char.toLower)) c with
          | some r => some r
          | none => detectRelativePeriod (pstripL (text.data.map Char.toLower)) c
        | none => none

/-! ## C6 — dataset-anchored "last month" -/

/-- C6 (confirmed): the utterance "qual foi o total do mês passado?"
contains no digits, so the explicit month/year, interval and year stages all
fail, and the last-month detector fires on the indicator "mês passado" —
producing the exact month of the dataset's *maximum date* (for any dataset
context, independent of any wall clock, which the parser does not consume);
with maximum date 2016-08-15 the result is the half-open interval
`[2016-08-01, 2016-09-01)`. -/
theorem C6_dataset_anchored_last_month :
    (∀ maxD minD : Date,
      parseTemporalEntities "qual foi o total do mês passado?" (some ⟨maxD, minD⟩)
        = some (formatDate maxD.y maxD.m 1,
            formatDate (nextMonth maxD.y maxD.m).1 (nextMonth maxD.y maxD.m).2 1)) ∧
      parseTemporalEntities "qual foi o total do mês passado?"
          (some ⟨⟨2016, 8, 15⟩, ⟨2015, 1, 1⟩⟩)
        = some ("2016-08-01", "2016-09-01") := by
  have hb : betweenStage
      (pstripL ("qual foi o total do mês passado?".data.map Char.toLower)) = none := by
    decide
  have hm : monthYearStage
      (pstripL ("qual foi o total do mês passado?".data.map Char.toLower)) = none := by
    decide
  have hy : yearStage
      (pstripL ("qual foi o total do mês passado?".data.map Char.toLower)) = none := by
    decide
  have hf : lastMonthFires
      (pstripL ("qual foi o total do mês passado?".data.map Char.toLower)) = true := by
    decide
  have hgen : ∀ maxD minD : Date,
      parseTemporalEntities "qual foi o total do mês passado?" (some ⟨maxD, minD⟩)
        = some (formatDate maxD.y maxD.m 1,
            formatDate (nextMonth maxD.y maxD.m).1 (nextMonth maxD.y maxD.m).2 1) := by
    intro maxD minD
    unfold parseTemporalEntities
    rw [hb, hm, hy]
    dsimp only
    unfold detectLastMonth
    rw [if_pos hf]
  exact ⟨hgen, by rw [hgen ⟨2016, 8, 15⟩ ⟨2015, 1, 1⟩]; decide⟩

/-! ## `SQLFilterExtractor` (`src/filters/core/extractor.py`)

The extraction pipeline: whitespace normalisation, the `WHERE`-clause search
(case-insensitive, word-bounded, truncated at the first
`GROUP BY`/`ORDER BY`/`HAVING`/`LIMIT`), the ordered sequence of
condition-pattern scanners filling a dict, and the mapping into the
category/field JSON structure.  Every regex is modelled as a character-level
scanner; `re.finditer` tries every word-boundary position. -/

/-- `re.sub(r'\s+', ' ', sql_query.strip())` (state-machine form). -/
def collapseWsGo : Bool → List Char → List Char
  | _, [] => []
  | prev, c :: rest =>
    if isPySpace c then
      if prev then collapseWsGo true rest else ' ' :: collapseWsGo true rest
    else c :: collapseWsGo false rest

def normalizeQuery (s : String) : List Char := collapseWsGo false (pstripL s.data)

def boundaryPrevL : List Char → Bool
  | [] => true
  | pc :: _ => !isWordChar pc

/-- Case-insensitive literal match (the patterns are compiled with
`re.IGNORECASE`; patterns are given lowercase). -/
def matchLitCI : List Char → List Char → Option (List Char)
  | [], cs => some cs
  | p :: ps, c :: cs => if c.toLower = p then matchLitCI ps cs else none
  | _ :: _, [] => none

/-- A word-bounded case-insensitive keyword at the current position. -/
def keywordAt (w : String) (cs : List Char) : Bool :=
  match matchLitCI w.data cs with
  | some r =>
    (match r with
     | x :: _ => !isWordChar x
     | [] => true)
  | none => false

def isTerminatorAt (prev : Option Char) (cs : List Char) : Bool :=
  (match prev with
   | none => true
   | some pc => !isWordChar pc) &&
  (keywordAt "group by" cs || keywordAt "order by" cs ||
   keywordAt "having" cs || keywordAt "limit" cs)

/-- The clause text up to the first terminator keyword (the non-greedy
`(.*?)(?:\bGROUP BY\b|\bORDER BY\b|\bHAVING\b|\bLIMIT\b|$)`). -/
def truncClause : Option Char → List Char → List Char
  | _, [] => []
  | prev, c :: rest =>
    if isTerminatorAt prev (c :: rest) then []
    else c :: truncClause (some c) rest

def findWhereAux : Option Char → List Char → Option (List Char)
  | _, [] => none
  | prev, c :: rest =>
    if (match prev with
        | none => true
        | some pc => !isWordChar pc) = true then
      match matchLitCI "where".data (c :: rest) with
      | some r =>
        if (match r with
            | x :: _ => !isWordChar x
            | [] => true) then some r
        else findWhereAux (some c) rest
      | none => findWhereAux (some c) rest
    else findWhereAux (some c) rest

/-- The `\bWHERE\b(.*?)(?:...)` search of `_extract_where_conditions`,
including the final `.strip()`. -/
def findWhereClause (cs : List Char) : Option (List Char) :=
  (findWhereAux none cs).map (fun r => pstripL (truncClause (some 'e') r))

/-! ### Condition-pattern scanners -/

/-- A scan carrying the reversed prefix (for `\b` and the `(?<!LOWER\()`
lookbehind). -/
def scanAllPre {α : Type} (m : List Char → List Char → Option α) :
    List Char → List Char → List α
  | _, [] => []
  | revPrev, c :: rest =>
    (match m revPrev (c :: rest) with
     | some v => [v]
     | none => []) ++ scanAllPre m (c :: revPrev) rest

/-- The `(?<!LOWER\()` negative lookbehind. -/
def notAfterLowerParen (revPrev : List Char) : Bool :=
  !(decide ((revPrev.take 6).map Char.toLower = ['(', 'r', 'e', 'w', 'o', 'l']))

/-- `\s*`. -/
def matchWs0 (cs : List Char) : List Char := cs.dropWhile isPySpace

/-- `'([^']*)'` (or with `"`). -/
def quotedVal (q : Char) : List Char → Option (String × List Char)
  | c :: rest =>
    if c = q then
      let v := rest.takeWhile (fun x => !(x = q))
      match rest.drop v.length with
      | _ :: r2 => some (⟨v⟩, r2)
      | [] => none
    else none
  | [] => none

def isQuoteChar (c : Char) : Bool := c = '\'' || c = '"'

/-- Python `value.strip('\'"')`. -/
def stripQuotes (cs : List Char) : List Char :=
  ((cs.dropWhile isQuoteChar).reverse.dropWhile isQuoteChar).reverse

/-- `LOWER\((\w+)\)\s*=\s*'([^']*)'` — the value is upper-cased back. -/
def mEqualityLower (_rev cs : List Char) : Option (List (String × Value)) :=
  ((matchLitCI "lower(".data cs).bind captureWord).bind fun p =>
    match p.2 with
    | ')' :: r2 =>
      (match matchWs0 r2 with
       | '=' :: r4 =>
         (quotedVal '\'' (matchWs0 r4)).map fun q =>
           [(p.1, Value.s ⟨upperL q.1.data⟩)]
       | _ => none)
    | _ => none

/-- `(?<!LOWER\()(\w+)\s*=\s*'([^']*)'`. -/
def mEquality (rev cs : List Char) : Option (List (String × Value)) :=
  if boundaryPrevL rev && notAfterLowerParen rev then
    (captureWord cs).bind fun p =>
      match matchWs0 p.2 with
      | '=' :: r4 =>
        (quotedVal '\'' (matchWs0 r4)).map fun q => [(p.1, Value.s q.1)]
      | _ => none
  else none

/-- `(?:LOWER\()?(\w+)\)?\s*=\s*"([^"]*)"`. -/
def mEqualityDq (rev cs : List Char) : Option (List (String × Value)) :=
  if boundaryPrevL rev then
    (captureWord ((matchLitCI "lower(".data cs).getD cs)).bind fun p =>
      match matchWs0 (match p.2 with
        | ')' :: t => t
        | t => t) with
      | '=' :: r4 =>
        (quotedVal '"' (matchWs0 r4)).map fun q => [(p.1, Value.s q.1)]
      | _ => none
  else none

/-- `(?<!LOWER\()(\w+)\s*=\s*(\d+(?:\.\d+)?)\b` — a numeric equality, kept
as a string. -/
def mEqualityNum (rev cs : List Char) : Option (List (String × Value)) :=
  if boundaryPrevL rev && notAfterLowerParen rev then
    (captureWord cs).bind fun p =>
      match matchWs0 p.2 with
      | '=' :: r4 =>
        let r5 := matchWs0 r4
        let ds := r5.takeWhile Char.isDigit
        if ds.isEmpty then none
        else
          let rest1 := r5.drop ds.length
          let nr : List Char × List Char :=
            match rest1 with
            | '.' :: t =>
              let fs := t.takeWhile Char.isDigit
              if fs.isEmpty then (ds, rest1) else (ds ++ '.' :: fs, t.drop fs.length)
            | _ => (ds, rest1)
          if (match nr.2 with
              | x :: _ => !isWordChar x
              | [] => true) then
            some [(p.1, Value.s ⟨nr.1⟩)]
          else none
      | _ => none
  else none

/-- `LOWER\((\w+)\)\s+LIKE\s+'([^']*)'`. -/
def mLikeLower (_rev cs : List Char) : Option (List (String × Value)) :=
  ((matchLitCI "lower(".data cs).bind captureWord).bind fun p =>
    match p.2 with
    | ')' :: r2 =>
      (((matchWs1 r2).bind (matchLitCI "like".data)).bind matchWs1).bind fun r4 =>
        (quotedVal '\'' r4).map fun q => [(p.1, Value.s ⟨upperL q.1.data⟩)]
    | _ => none

/-- `(?<!LOWER\()(\w+)\s+LIKE\s+'([^']*)'`. -/
def mLike (rev cs : List Char) : Option (List (String × Value)) :=
  if boundaryPrevL rev && notAfterLowerParen rev then
    (captureWord cs).bind fun p =>
      (((matchWs1 p.2).bind (matchLitCI "like".data)).bind matchWs1).bind fun r4 =>
        (quotedVal '\'' r4).map fun q => [(p.1, Value.s q.1)]
  else none

/-- The `value.strip('\'"')` / leading-`DATE` cleanup of the comparison
branch. -/
def cleanCompValue (v : String) : String :=
  let c := stripQuotes v.data
  if (c.take 4).map Char.toUpper = "DATE".data then ⟨stripQuotes (c.drop 4)⟩
  else ⟨c⟩

/-- `(\w+)\s*([><=!]+)\s*(?:DATE\s*)?'([^']*)'` — the operator is appended
to the field name. -/
def mComparison (rev cs : List Char) : Option (List (String × Value)) :=
  if boundaryPrevL rev then
    (captureWord cs).bind fun p =>
      let r1 := matchWs0 p.2
      let ops := r1.takeWhile (fun c => c = '>' || c = '<' || c = '=' || c = '!')
      if ops.isEmpty then none
      else
        let r2 := matchWs0 (r1.drop ops.length)
        let r3 := match matchLitCI "date".data r2 with
          | some t => matchWs0 t
          | none => r2
        (quotedVal '\'' r3).map fun q =>
          [(p.1 ++ "_" ++ ⟨ops⟩, Value.s (cleanCompValue q.1))]
  else none

/-- `re.findall(r"'([^']*)'|\"([^\"]*)\"", ...)` (fuelled). -/
def findQuotedF : Nat → List Char → List String
  | 0, _ => []
  | _, [] => []
  | fuel + 1, c :: rest =>
    if c = '\'' then
      let v := rest.takeWhile (fun x => !(x = '\''))
      match rest.drop v.length with
      | _ :: r2 => (⟨v⟩ : String) :: findQuotedF fuel r2
      | [] => []
    else if c = '"' then
      let v := rest.takeWhile (fun x => !(x = '"'))
      match rest.drop v.length with
      | _ :: r2 => (⟨v⟩ : String) :: findQuotedF fuel r2
      | [] => []
    else findQuotedF fuel rest

def findQuotedL (cs : List Char) : List String := findQuotedF cs.length cs

/-- `(?:LOWER\()?(\w+)\)?\s+IN\s*\(([^)]+)\)` — the quoted members, a UF
field upper-cased, a single member stored as a scalar. -/
def mInValues (rev cs : List Char) : Option (List (String × Value)) :=
  if boundaryPrevL rev then
    (captureWord ((matchLitCI "lower(".data cs).getD cs)).bind fun p =>
      ((matchWs1 (match p.2 with
         | ')' :: t => t
         | t => t)).bind (matchLitCI "in".data)).bind fun r2 =>
        match matchWs0 r2 with
        | '(' :: r3 =>
          let inner := r3.takeWhile (fun c => !(c = ')'))
          if inner.isEmpty then none
          else
            match r3.drop inner.length with
            | ')' :: _ =>
              let vals := findQuotedL inner
              if vals.isEmpty then none
              else
                let cleanVals :=
                  if (⟨p.1.data.map Char.toLower⟩ : String) = "uf_cliente" then
                    vals.map (fun v => (⟨upperL v.data⟩ : String))
                  else vals
                some [(p.1, if cleanVals.length > 1 then Value.l cleanVals
                  else Value.s (cleanVals.headD ""))]
            | _ => none
        | _ => none
  else none

/-- `(\w+)\s+BETWEEN\s+([^\s]+)\s+AND\s+([^\s]+)` — two comparison-style
entries. -/
def mBetween (rev cs : List Char) : Option (List (String × Value)) :=
  if boundaryPrevL rev then
    (captureWord cs).bind fun p =>
      ((matchWs1 p.2).bind (matchLitCI "between".data)).bind fun r1 =>
        (matchWs1 r1).bind fun r2 =>
          let v1 := r2.takeWhile (fun c => !isPySpace c)
          if v1.isEmpty then none
          else
            ((matchWs1 (r2.drop v1.length)).bind (matchLitCI "and".data)).bind fun r3 =>
              (matchWs1 r3).bind fun r4 =>
                let v2 := r4.takeWhile (fun c => !isPySpace c)
                if v2.isEmpty then none
                else some [(p.1 ++ "_>=", Value.s ⟨stripQuotes v1⟩),
                  (p.1 ++ "_<=", Value.s ⟨stripQuotes v2⟩)]
  else none

/-- The ordered pattern pass of `_extract_where_conditions`: all matches of
each pattern, in pattern order, written into the conditions dict. -/
def runPatterns (clause : List Char) : Ctx :=
  (scanAllPre mEqualityLower [] clause ++
   scanAllPre mEquality [] clause ++
   scanAllPre mEqualityDq [] clause ++
   scanAllPre mEqualityNum [] clause ++
   scanAllPre mLikeLower [] clause ++
   scanAllPre mLike [] clause ++
   scanAllPre mComparison [] clause ++
   scanAllPre mInValues [] clause ++
   scanAllPre mBetween [] clause).flatten.foldl (fun d q => insertC d q.1 q.2) []

/-- `SQLFilterExtractor._extract_where_conditions`. -/
def extractWhereConditions (cs : List Char) : Ctx :=
  match findWhereClause cs with
  | none => []
  | some clause => runPatterns clause

/-! ### Mapping to the JSON structure (`_map_sql_to_json`) -/

/-- A JSON value of the filter structure. -/
inductive JVal where
  | null : JVal
  | s (x : String) : JVal
  | l (xs : List String) : JVal
  | obj (fields : List (String × JVal)) : JVal

def toJVal : Value → JVal
  | .null => JVal.null
  | .s x => JVal.s x
  | .l xs => JVal.l xs

/-- `_get_empty_filter_structure`. -/
def emptyFilterStructure : List (String × JVal) :=
  [("periodo", JVal.obj []),
   ("regiao", JVal.obj [("UF_Cliente", JVal.null), ("Municipio_Cliente", JVal.null)]),
   ("cliente", JVal.obj [("Cod_Cliente", JVal.null), ("Cod_Segmento_Cliente", JVal.null)]),
   ("produto", JVal.obj [("Cod_Familia_Produto", JVal.null),
     ("Cod_Grupo_Produto", JVal.null), ("Cod_Linha_Produto", JVal.null),
     ("Des_Linha_Produto", JVal.null)]),
   ("representante", JVal.obj [("Cod_Vendedor", JVal.null),
     ("Cod_Regiao_Vendedor", JVal.null)])]

def lookupA {β : Type} : List (String × β) → String → Option β
  | [], _ => none
  | (k, v) :: r, s => if k = s then some v else lookupA r s

def insertA {β : Type} : List (String × β) → String → β → List (String × β)
  | [], f, v => [(f, v)]
  | (k, w) :: r, f, v => if k = f then (k, v) :: r else (k, w) :: insertA r f v

/-- `SQLFilterExtractor.column_mapping`. -/
def columnMappingExtractor : List (String × String) :=
  [("Data", "periodo"), ("Data_>=", "periodo"), ("Data_<", "periodo"),
   ("Data_<=", "periodo"), ("Data_>", "periodo"), ("periodo", "periodo"),
   ("mes", "periodo"), ("ano", "periodo"),
   ("UF_Cliente", "regiao"), ("Municipio_Cliente", "regiao"),
   ("cidade", "regiao"), ("estado", "regiao"),
   ("Cod_Cliente", "cliente"), ("Cod_Segmento_Cliente", "cliente"),
   ("cliente", "cliente"),
   ("Cod_Familia_Produto", "produto"), ("Cod_Grupo_Produto", "produto"),
   ("Cod_Linha_Produto", "produto"), ("Des_Linha_Produto", "produto"),
   ("produto", "produto"), ("familia", "produto"), ("grupo", "produto"),
   ("linha", "produto"),
   ("Cod_Vendedor", "representante"), ("Cod_Regiao_Vendedor", "representante"),
   ("vendedor", "representante"), ("representante", "representante")]

def directTargetMapping : List (String × String) :=
  [("UF_Cliente", "UF_Cliente"), ("Municipio_Cliente", "Municipio_Cliente"),
   ("Cod_Cliente", "Cod_Cliente"), ("Cod_Segmento_Cliente", "Cod_Segmento_Cliente"),
   ("Cod_Familia_Produto", "Cod_Familia_Produto"),
   ("Cod_Grupo_Produto", "Cod_Grupo_Produto"),
   ("Cod_Linha_Produto", "Cod_Linha_Produto"),
   ("Des_Linha_Produto", "Des_Linha_Produto"),
   ("Cod_Vendedor", "Cod_Vendedor"), ("Cod_Regiao_Vendedor", "Cod_Regiao_Vendedor")]

/-- `SQLFilterExtractor._determine_target_field`. -/
def determineTargetField (sqlCol cat : String) : Option String :=
  match lookupA directTargetMapping sqlCol with
  | some t => some t
  | none =>
    let low : List Char := sqlCol.data.map Char.toLower
    if cat = "regiao" then
      if infixB "uf".data low || infixB "estado".data low then some "UF_Cliente"
      else if infixB "municipio".data low || infixB "cidade".data low then
        some "Municipio_Cliente"
      else none
    else if cat = "cliente" then
      if infixB "segmento".data low then some "Cod_Segmento_Cliente"
      else some "Cod_Cliente"
    else if cat = "produto" then
      if infixB "familia".data low then some "Cod_Familia_Produto"
      else if infixB "grupo".data low then some "Cod_Grupo_Produto"
      else if infixB "linha".data low then
        (if infixB "des_".data low || infixB "descri".data low then
          some "Des_Linha_Produto"
        else some "Cod_Linha_Produto")
      else none
    else if cat = "representante" then
      if infixB "regiao".data low then some "Cod_Regiao_Vendedor"
      else some "Cod_Vendedor"
    else none

/-- `SQLFilterExtractor._process_field_value`. -/
def processFieldValue (v : Value) (field : String) : Value :=
  match v with
  | Value.l xs => Value.l xs
  | Value.s x => if field = "UF_Cliente" then Value.s ⟨upperL x.data⟩ else Value.s x
  | Value.null => Value.null

/-- Is the key temporal (`any(t in key.lower() for t in
['data','periodo','mes','ano'])`)? -/
def tempKeyB (k : String) : Bool :=
  ["data", "periodo", "mes", "ano"].any (fun t => infixB t.data (k.data.map Char.toLower))

/-- `_convert_date_to_month_year`, producing the `{mes, ano}` dict; a
non-string or unparsable input yields `{}`. -/
def convertDateToMonthYearJ (v : Value) : List (String × JVal) :=
  match v with
  | Value.s x =>
    (match parseDate x with
     | some dt => [("mes", JVal.s ⟨pad2L dt.m⟩), ("ano", JVal.s ⟨natDigits dt.y⟩)]
     | none => [])
  | _ => []

def getS : Value → Option String
  | .s x => some x
  | _ => none

/-- The `{mes,ano}` / `{inicio,fim}` / raw-range dict of a structured
period. -/
def structuredToJ : Periodo → List (String × JVal)
  | .mesAno m y => [("mes", JVal.s ⟨pad2L m⟩), ("ano", JVal.s ⟨natDigits y⟩)]
  | .inicioFim mi yi mf yf =>
    [("inicio", JVal.obj [("mes", JVal.s ⟨pad2L mi⟩), ("ano", JVal.s ⟨natDigits yi⟩)]),
     ("fim", JVal.obj [("mes", JVal.s ⟨pad2L mf⟩), ("ano", JVal.s ⟨natDigits yf⟩)])]
  | .anoOnly a => [("ano", JVal.s ⟨natDigits a⟩)]
  | .rawRange ge lt excl =>
    [("Data_>=", JVal.s ge), ((if excl then "Data_<" else "Data_<="), JVal.s lt)]

def tvOpt : Option Value → Bool
  | some v => truthyV v
  | none => false

/-- `SQLFilterExtractor._process_temporal_conditions`: accumulate bounds
(substring key tests, `Data_<=` shadowed by the `Data_<` test as in the
source), return immediately on an exact `Data` key; combine at the end.  A
non-string bound reaching `strptime` raises `TypeError`, uncaught by the
range converter — modelled as `Except.error` (the extractor boundary turns
it into the error result). -/
def processTemporalConditions :
    Ctx → Option Value × Option Value × Option Value →
    Except Unit (List (String × JVal))
  | [], (gte, lt, lte) =>
    if tvOpt gte ∧ (tvOpt lt ∨ tvOpt lte) then
      let endV := if tvOpt lt then lt else lte
      match (gte.getD Value.null), (endV.getD Value.null) with
      | Value.s s1, Value.s s2 =>
        Except.ok (structuredToJ (convertDateRangeToStructured s1 s2 (tvOpt lt)))
      | _, _ => Except.error ()
    else if tvOpt gte then
      let info := convertDateToMonthYearJ (gte.getD Value.null)
      Except.ok (if info.isEmpty then [] else [("inicio", JVal.obj info)])
    else if tvOpt lt ∨ tvOpt lte then
      let endV := if tvOpt lt then lt else lte
      let info := convertDateToMonthYearJ (endV.getD Value.null)
      Except.ok (if info.isEmpty then [] else [("fim", JVal.obj info)])
    else Except.ok []
  | (k, v) :: rest, (gte, lt, lte) =>
    if infixB "Data_>=".data k.data then
      processTemporalConditions rest (some v, lt, lte)
    else if infixB "Data_<".data k.data then
      processTemporalConditions rest (gte, some v, lte)
    else if infixB "Data_<=".data k.data then
      processTemporalConditions rest (gte, lt, some v)
    else if k = "Data" then Except.ok (convertDateToMonthYearJ v)
    else processTemporalConditions rest (gte, lt, lte)

def jEmptyish : JVal → Bool
  | .null => true
  | .s x => x = ""
  | .l xs => xs.isEmpty
  | .obj _ => false

/-- `SQLFilterExtractor._clean_empty_fields`. -/
def cleanEmptyFields (st : List (String × JVal)) : List (String × JVal) :=
  st.foldr (fun p acc =>
    match p.2 with
    | JVal.obj fs =>
      let ne := fs.filter (fun q => !jEmptyish q.2)
      if ne.isEmpty then acc else (p.1, JVal.obj ne) :: acc
    | other => if jEmptyish other then acc else (p.1, other) :: acc) []

/-- Place a value into `json_structure[category][target]`. -/
def setField (st : List (String × JVal)) (cat tf : String) (v : JVal) :
    List (String × JVal) :=
  match lookupA st cat with
  | some (JVal.obj fs) => insertA st cat (JVal.obj (insertA fs tf v))
  | _ => st

/-- `re.sub(r'_[><=!]+$', '', sql_column)`. -/
def stripOpSuffix (k : String) : String :=
  let r := k.data.reverse
  let ops := r.takeWhile (fun c => c = '>' || c = '<' || c = '=' || c = '!')
  if !ops.isEmpty ∧ (r.drop ops.length).head? = some '_' then
    ⟨(r.drop (ops.length + 1)).reverse⟩
  else k

/-- `SQLFilterExtractor._map_sql_to_json`. -/
def mapSqlToJson (conds : Ctx) : Except Unit (List (String × JVal)) :=
  let tconds := conds.filter (fun p => tempKeyB p.1)
  let oconds := conds.filter (fun p => !tempKeyB p.1)
  match (if tconds.isEmpty then Except.ok emptyFilterStructure
    else
      match processTemporalConditions tconds (none, none, none) with
      | Except.ok pf => Except.ok (insertA emptyFilterStructure "periodo" (JVal.obj pf))
      | Except.error e => Except.error e) with
  | Except.error e => Except.error e
  | Except.ok base =>
    Except.ok (cleanEmptyFields (oconds.foldl (fun st p =>
      let baseCol := stripOpSuffix p.1
      match lookupA columnMappingExtractor baseCol with
      | some cat =>
        (match lookupA st cat with
         | some _ =>
           (match determineTargetField baseCol cat with
            | some tf => setField st cat tf (toJVal (processFieldValue p.2 tf))
            | none => st)
         | none => st)
      | none => st) base))

/-- The result of `extract_filters_from_sql`: a filter structure, or the
`{"error": ...}` dict produced by the boundary `except`. -/
inductive ExtractResult where
  | ok (fj : List (String × JVal))
  | error

/-- `SQLFilterExtractor.extract_filters_from_sql`: normalise, extract the
conditions dict, return the empty structure when it is empty, otherwise map
to JSON (an uncaught `TypeError` inside the mapping becomes the error
dict at this boundary — never an exception to the caller). -/
def extractFiltersFromSql (sql : String) : ExtractResult :=
  let conds := extractWhereConditions (normalizeQuery sql)
  if conds = [] then ExtractResult.ok emptyFilterStructure
  else
    match mapSqlToJson conds with
    | Except.ok fj => ExtractResult.ok fj
    | Except.error _ => ExtractResult.error

/-! ## C8 — failure semantics of SQL filter extraction -/

/-- C8 (confirmed): filter extraction is a total function (the source's
boundary `except` guarantees a dict result, never an exception), and both
failure modes degrade to the empty filter structure: a query whose
normalised text has no word-bounded `WHERE`, and a `WHERE` clause on which
no condition pattern matches. -/
theorem C8_extraction_failure_semantics (sql : String) :
    (findWhereClause (normalizeQuery sql) = none →
      extractFiltersFromSql sql = ExtractResult.ok emptyFilterStructure) ∧
    (∀ clause, findWhereClause (normalizeQuery sql) = some clause →
      runPatterns clause = [] →
      extractFiltersFromSql sql = ExtractResult.ok emptyFilterStructure) := by
  constructor
  · intro h
    unfold extractFiltersFromSql extractWhereConditions
    rw [h]
    rfl
  · intro clause h1 h2
    unfold extractFiltersFromSql extractWhereConditions
    rw [h1]
    dsimp only
    rw [h2]
    rfl

/-- Witness for `C8_extraction_failure_semantics`: a query with no `WHERE`
clause, and one whose clause matches no pattern. -/
theorem C8_extraction_failure_semantics_witness :
    extractFiltersFromSql "SELECT * FROM tabela"
        = ExtractResult.ok emptyFilterStructure ∧
      extractFiltersFromSql "SELECT a FROM t WHERE x"
        = ExtractResult.ok emptyFilterStructure :=
  ⟨(C8_extraction_failure_semantics "SELECT * FROM tabela").1 (by decide),
   (C8_extraction_failure_semantics "SELECT a FROM t WHERE x").2 "x".data
     (by decide) (by decide)⟩

end FilterEngine
